import Mathlib

set_option maxRecDepth 8000

/-!
A shallow embedding of the PainChain connector sync engine
(src/backend/connectors/github/connector.py and src/backend/api/tasks.py).

Modelling conventions:
* The database store is a list of `StoredEvent` records; a SQLAlchemy session
  is a pair (committed rows, staged-but-uncommitted rows).  A query sees
  committed ++ staged rows (SQLAlchemy autoflush).  `commit` moves staged rows
  to committed; `rollback` drops them.
* Upstream GitHub data is pure data (`World`, `RepoData`, ...).  An optional
  secondary fetch that may raise (`pr.get_files()`, `pr.get_reviews()`,
  `run.jobs()`, `commit.files`) is an `Option`: `none` models the call raising,
  matching the bare `except:` handlers in the source.
* A `GithubException` aborting a whole target (lines 834-837) is modelled by
  `RepoData.failAt`: raised while enumerating pull requests, or while
  enumerating releases (after the PR loop ran).  The workflow and registry
  sections have their own catch-all handlers in the source and never abort a
  target; a failing branch lookup in the commits section is modelled by the
  branch being absent from `RepoData.branches`.
* Timestamps, URLs and image sizes are not modelled: no claim depends on them
  (the GitHub packages list endpoint never returns a size, source lines 81-92).
* Network traffic is modelled by call counters (`fetchNetCalls` etc.) so that
  "zero network calls" is expressible.
-/

/-- The kind-specific payload of a normalized event: the description sub-object
and the kind-specific metadata written by each of the five storage sections of
`fetch_with_session`. -/
inductive EventDetails where
  | pull (number : Nat) (filesChanged : List String) (reviewers : List String)
      (approvedCount : Nat) (changesRequestedCount : Nat)
      (baseBranch : String) (headBranch : String)
  | release (releaseId : Nat) (assets : List String) (tagName : String)
      (draft : Bool) (prerelease : Bool)
  | workflow (runId : Nat) (failedJobNames : List String) (branch : String)
      (conclusion : Option String)
  | commit (filesChanged : List String) (branch : String) (sha : String)
      (additions : Nat) (deletions : Nat) (totalChanges : Nat)
  | registry (versionId : Nat) (image : String) (tags : List String)
      (digest : String)
  deriving DecidableEq, Repr

/-- A row of the `change_events` table (src/backend/shared/models.py), restricted
to the columns the claims are about.  `connectionId` is `none` for rows written
by the legacy `fetch_and_store_changes` path, which never sets it. -/
structure StoredEvent where
  connectionId : Option Nat
  source : String
  eventId : String
  title : String
  text : String
  labels : List String
  relatedEvents : List String
  author : String
  status : String
  repository : String
  details : EventDetails
  deriving DecidableEq, Repr

/-- Python `a or b` on an optional string: `b` when `a` is missing or empty. -/
def pyOrS (a : Option String) (b : String) : String :=
  match a with
  | none => b
  | some s => if s = "" then b else s

/-!
Python string operations are embedded over the character list of the string
(Python slices and splits act on characters), so that concrete runs evaluate
by kernel reduction.
-/

/-- Python `s[:n]`: the first `n` characters. -/
def strTake (s : String) (n : Nat) : String :=
  ⟨s.data.take n⟩

/-- Python `s.split(chr(10))[0]`: the first line of a string. -/
def firstLine (s : String) : String :=
  ⟨s.data.takeWhile (fun c => decide (c ≠ '\n'))⟩

/-- Python `s.split('/')[0]`: everything before the first slash. -/
def beforeSlash (s : String) : String :=
  ⟨s.data.takeWhile (fun c => decide (c ≠ '/'))⟩

/-- Python `s.lower()`. -/
def lowerStr (s : String) : String :=
  ⟨s.data.map Char.toLower⟩

/-- Python whitespace for `str.strip()`. -/
def isSpaceChar (c : Char) : Bool :=
  decide (c = ' ') || decide (c = '\t') || decide (c = '\n') || decide (c = '\r')

/-- Python `s.strip()`. -/
def strTrim (s : String) : String :=
  ⟨((s.data.dropWhile isSpaceChar).reverse.dropWhile isSpaceChar).reverse⟩

/-- Python `s.split(',')`. -/
def splitComma (s : String) : List String :=
  (s.data.splitOnP (fun c => decide (c = ','))).map (fun cs => ⟨cs⟩)

/-- Python `', '.join(l)`. -/
def joinComma (l : List String) : String :=
  String.intercalate ", " l

/-- One review returned by `pr.get_reviews()`. -/
structure ReviewData where
  user : Option String
  state : String
  deriving DecidableEq, Repr

/-- One pull request returned by `repo.get_pulls(state='all', ...)`.
`filesFetch = none` / `reviewsFetch = none` model `pr.get_files()` /
`pr.get_reviews()` raising. -/
structure PRData where
  number : Nat
  title : String
  body : Option String
  userLogin : String
  baseRef : String
  headRef : String
  state : String
  labels : List String
  filesFetch : Option (List String)
  reviewsFetch : Option (List ReviewData)
  deriving DecidableEq, Repr

/-- One release returned by `repo.get_releases()`. -/
structure ReleaseData where
  releaseId : Nat
  title : Option String
  tagName : String
  body : Option String
  authorLogin : Option String
  draft : Bool
  prerelease : Bool
  assets : List String
  deriving DecidableEq, Repr

/-- One job returned by `run.jobs()`. -/
structure JobData where
  name : String
  conclusion : Option String
  deriving DecidableEq, Repr

/-- One workflow run returned by `repo.get_workflow_runs()`.
`jobsFetch = none` models `run.jobs()` raising. -/
structure RunData where
  runId : Nat
  name : String
  headBranch : String
  headSha : String
  conclusion : Option String
  status : String
  actorLogin : Option String
  jobsFetch : Option (List JobData)
  deriving DecidableEq, Repr

/-- `commit.stats` (additions/deletions/total). -/
structure StatsData where
  additions : Nat
  deletions : Nat
  total : Nat
  deriving DecidableEq, Repr

/-- One commit returned by `repo.get_commits(sha=...)`.
`filesFetch = none` models reading `commit.files` raising. -/
structure CommitData where
  sha : String
  message : String
  authorName : Option String
  filesFetch : Option (List String)
  stats : Option StatsData
  deriving DecidableEq, Repr

/-- One branch of a repository; a branch name missing from
`RepoData.branches` models `repo.get_branch(name)` raising. -/
structure BranchData where
  name : String
  commits : List CommitData
  deriving DecidableEq, Repr

/-- One container package version from the GitHub packages API. -/
structure VersionData where
  versionId : Nat
  tags : List String
  digest : String
  authorLogin : Option String
  deriving DecidableEq, Repr

/-- One container package; `versionsOk = false` models the versions endpoint
answering with a non-200 status. -/
structure PackageData where
  name : String
  versionsOk : Bool
  versions : List VersionData
  deriving DecidableEq, Repr

/-- The container packages of one organization; `packagesOk = false` models the
package-list endpoint answering with a non-200 status. -/
structure OrgData where
  packagesOk : Bool
  packages : List PackageData
  deriving DecidableEq, Repr

/-- The point at which a `GithubException` aborts the processing of one target
(caught by the per-target handler at lines 834-837). -/
inductive TargetFail where
  | pullsEnum
  | releasesEnum
  deriving DecidableEq, Repr

/-- One repository target. -/
structure RepoData where
  fullName : String
  pulls : List PRData
  releases : List ReleaseData
  runsFetchFail : Bool
  runs : List RunData
  branches : List BranchData
  failAt : Option TargetFail
  deriving DecidableEq, Repr

/-- The reachable upstream state: whether `get_user().login` succeeds, the
repositories reachable by name via `get_repo` (an absent name models the call
raising), the account repositories for the discovery default, and the
organizations visible to the packages API. -/
structure World where
  authOk : Bool
  repos : List (String × RepoData)
  userRepos : List RepoData
  orgs : List (String × OrgData)
  deriving DecidableEq, Repr

/-- Builds the stored PR event (connector.py lines 506-558; the legacy path at
lines 156-207 builds the same record without a connection id). -/
def buildPREvent (cid : Option Nat) (fullName : String) (pr : PRData)
    (eid : String) : StoredEvent :=
  let filesChanged := match pr.filesFetch with
    | some fs => fs.take 20
    | none => []
  let reviewers := match pr.reviewsFetch with
    | some rs => (rs.filterMap (fun r => r.user)).eraseDups
    | none => []
  let approvedCount := match pr.reviewsFetch with
    | some rs => (rs.filter (fun r => decide (r.state = "APPROVED"))).length
    | none => 0
  let changesRequestedCount := match pr.reviewsFetch with
    | some rs => (rs.filter (fun r => decide (r.state = "CHANGES_REQUESTED"))).length
    | none => 0
  { connectionId := cid
    source := "github"
    eventId := eid
    title := "[PR] " ++ pr.title
    text := pr.body.getD ""
    labels := pr.labels
    relatedEvents := []
    author := pr.userLogin
    status := pr.state
    repository := fullName
    details := .pull pr.number filesChanged reviewers approvedCount
      changesRequestedCount pr.baseRef pr.headRef }

/-- Builds the stored release event (connector.py lines 573-597). -/
def buildReleaseEvent (cid : Option Nat) (fullName : String) (r : ReleaseData)
    (eid : String) : StoredEvent :=
  { connectionId := cid
    source := "github"
    eventId := eid
    title := "[Release] " ++ pyOrS r.title r.tagName
    text := r.body.getD ""
    labels := []
    relatedEvents := []
    author := r.authorLogin.getD "unknown"
    status := if r.draft then "draft" else "published"
    repository := fullName
    details := .release r.releaseId r.assets r.tagName r.draft r.prerelease }

/-- The conclusions for which job details are fetched and jobs count as failed
(connector.py lines 622 and 626). -/
def failConclusions : List String := ["failure", "timed_out", "cancelled"]

/-- Python `x in ['failure','timed_out','cancelled']` on an optional string. -/
def isFailConclusion (c : Option String) : Bool :=
  match c with
  | some s => decide (s ∈ failConclusions)
  | none => false

/-- The conclusion-to-indicator map of connector.py lines 648-654, with
default bullet. -/
def statusEmoji (c : Option String) : String :=
  match c with
  | some "success" => "✓"
  | some "failure" => "✗"
  | some "cancelled" => "⊗"
  | some "skipped" => "⊘"
  | some "timed_out" => "⏱"
  | _ => "•"

/-- Builds the stored workflow-run event (connector.py lines 619-686). -/
def buildWorkflowEvent (cid : Option Nat) (fullName : String) (run : RunData)
    (eid : String) : StoredEvent :=
  let failedJobs : List JobData :=
    if isFailConclusion run.conclusion then
      match run.jobsFetch with
      | some js => js.filter (fun j => isFailConclusion j.conclusion)
      | none => []
    else []
  { connectionId := cid
    source := "github"
    eventId := eid
    title := "[Workflow] " ++ statusEmoji run.conclusion ++ " " ++ run.name
      ++ " - " ++ run.headBranch
    text := "Workflow: " ++ run.name
    labels := []
    relatedEvents := []
    author := run.actorLogin.getD "unknown"
    status := pyOrS run.conclusion run.status
    repository := fullName
    details := .workflow run.runId (failedJobs.map (fun j => j.name))
      run.headBranch run.conclusion }

/-- Builds the stored commit event (connector.py lines 714-747). -/
def buildCommitEvent (cid : Option Nat) (fullName : String) (branchName : String)
    (c : CommitData) (eid : String) : StoredEvent :=
  let filesChanged := match c.filesFetch with
    | some fs => fs.take 20
    | none => []
  let stats := c.stats.getD { additions := 0, deletions := 0, total := 0 }
  { connectionId := cid
    source := "github"
    eventId := eid
    title := "[Commit] " ++ strTake (firstLine c.message) 100
    text := c.message
    labels := []
    relatedEvents := []
    author := c.authorName.getD "unknown"
    status := "committed"
    repository := fullName
    details := .commit filesChanged branchName c.sha stats.additions
      stats.deletions stats.total }

example : (buildCommitEvent (some 1) "o/r" "main"
    { sha := "abc", message := "fix\nbody", authorName := none,
      filesFetch := none, stats := none } "commit-o/r-abc").title
    = "[Commit] fix" := by decide

/-- The dictionary appended per package version by `_fetch_registry_packages`
(connector.py lines 94-105). -/
structure PkgInfo where
  name : String
  packageName : String
  versionId : Nat
  tags : List String
  digest : String
  author : String
  deriving DecidableEq, Repr

/-- The versions collected for one package by `_fetch_registry_packages`
(connector.py lines 69-105): none when the versions endpoint fails, otherwise
the first `limit` versions with the untagged ones skipped. -/
def pkgVersionInfos (orgName : String) (limit : Nat) (pkg : PackageData) :
    List PkgInfo :=
  if pkg.versionsOk then
    (pkg.versions.take limit).filterMap (fun v =>
      if v.tags = [] then none
      else some
        { name := "ghcr.io/" ++ lowerStr orgName ++ "/" ++ pkg.name
          packageName := pkg.name
          versionId := v.versionId
          tags := v.tags
          digest := v.digest
          author := v.authorLogin.getD "unknown" })
  else []

/-- Embeds `GitHubConnector._fetch_registry_packages` (connector.py lines
34-110): at most 10 packages per organization, at most `limit` versions per
package, untagged versions skipped; a failing endpoint yields the packages
collected so far. -/
def fetchRegistryPackages (world : World) (orgName : String) (limit : Nat) :
    List PkgInfo :=
  match world.orgs.find? (fun p => decide (p.1 = orgName)) with
  | none => []
  | some p =>
    if p.2.packagesOk then
      ((p.2.packages.take 10).map (pkgVersionInfos orgName limit)).flatten
    else []

/-- Builds the stored container-image event (connector.py lines 768-823). -/
def buildRegistryEvent (cid : Option Nat) (fullName : String) (pkg : PkgInfo)
    (eid : String) : StoredEvent :=
  { connectionId := cid
    source := "github"
    eventId := eid
    title := "[Image] " ++ pkg.name ++ ":" ++ joinComma (pkg.tags.take 3)
    text := "Container image pushed to GitHub Container Registry"
      ++ "\nImage: " ++ pkg.name
      ++ "\nTags: " ++ joinComma (pkg.tags.take 5)
      ++ "\nDigest: " ++ strTake pkg.digest 19 ++ "..."
    labels := pkg.tags
    relatedEvents := []
    author := pkg.author
    status := "published"
    repository := fullName
    details := .registry pkg.versionId pkg.name pkg.tags pkg.digest }

/-- The kind of upstream entity an item belongs to; each kind corresponds to
one of the five storage sections of `fetch_with_session`. -/
inductive EventKind where
  | pull
  | release
  | workflow
  | commit
  | registry
  deriving DecidableEq, Repr

/-- One iteration of one of the five per-item loops of `fetch_with_session`:
the derived dedup `eventId`, whether the branch filter skips the item after it
was counted as fetched, and the record that would be staged. -/
structure Item where
  kind : EventKind
  eventId : String
  skip : Bool
  ev : StoredEvent
  deriving DecidableEq, Repr

/-- The session-and-counters state threaded through `fetch_with_session`:
committed rows, staged (added but uncommitted) rows, the per-kind splits of
`total_fetched`, and `total_stored`. -/
structure SyncState where
  committed : List StoredEvent
  staged : List StoredEvent
  prFetched : Nat
  relFetched : Nat
  wfFetched : Nat
  cFetched : Nat
  regFetched : Nat
  stored : Nat
  deriving DecidableEq, Repr

/-- The `total_fetched` counter of the source: every per-kind loop iteration
increments it exactly once. -/
def SyncState.fetched (st : SyncState) : Nat :=
  st.prFetched + st.relFetched + st.wfFetched + st.cFetched + st.regFetched

/-- The rows a session query sees: committed rows plus staged rows
(SQLAlchemy autoflush). -/
def SyncState.events (st : SyncState) : List StoredEvent :=
  st.committed ++ st.staged

/-- `db_session.commit()`: staged rows become committed. -/
def SyncState.commitStaged (st : SyncState) : SyncState :=
  { st with committed := st.committed ++ st.staged, staged := [] }

/-- `db_session.rollback()`: staged rows are dropped. -/
def SyncState.rollback (st : SyncState) : SyncState :=
  { st with staged := [] }

/-- The existence lookup of `fetch_with_session` (lines 501-504, 568-571,
614-617, 709-712, 763-766): filter on `connection_id` and `event_id`, take the
first row. -/
def lookupKey (events : List StoredEvent) (k : Option Nat) (eid : String) :
    Option StoredEvent :=
  events.find? (fun e => decide (e.connectionId = k ∧ e.eventId = eid))

/-- The existence lookup of the legacy `fetch_and_store_changes` path
(lines 151-154): filter on `source` and `event_id`. -/
def lookupSource (events : List StoredEvent) (src eid : String) :
    Option StoredEvent :=
  events.find? (fun e => decide (e.source = src ∧ e.eventId = eid))

/-- `total_fetched += 1`, attributed to the loop it occurs in. -/
def bumpFetched (st : SyncState) (k : EventKind) : SyncState :=
  match k with
  | .pull => { st with prFetched := st.prFetched + 1 }
  | .release => { st with relFetched := st.relFetched + 1 }
  | .workflow => { st with wfFetched := st.wfFetched + 1 }
  | .commit => { st with cFetched := st.cFetched + 1 }
  | .registry => { st with regFetched := st.regFetched + 1 }

/-- The body shared by the five per-item loops of `fetch_with_session`:
count the item as fetched; skip it if the branch filter rejects it; look up
the dedup key `(connection_id, event_id)`; when absent, stage the normalized
record and count it as stored, otherwise do nothing. -/
def processItem (cid : Nat) (st : SyncState) (it : Item) : SyncState :=
  let st1 := bumpFetched st it.kind
  if it.skip then st1
  else if (lookupKey (st1.committed ++ st1.staged) (some cid) it.eventId).isSome
    then st1
  else { st1 with staged := st1.staged ++ [it.ev], stored := st1.stored + 1 }

/-- One pull-request iteration (lines 493-560): eventId derivation, base-branch
filter, normalized record. -/
def prItem (cid : Nat) (fullName : String) (filterBranches : List String)
    (pr : PRData) : Item :=
  let eid := "pr-" ++ fullName ++ "-" ++ toString pr.number
  { kind := .pull
    eventId := eid
    skip := decide (filterBranches ≠ [] ∧ pr.baseRef ∉ filterBranches)
    ev := buildPREvent (some cid) fullName pr eid }

/-- One release iteration (lines 563-598). -/
def releaseItem (cid : Nat) (fullName : String) (r : ReleaseData) : Item :=
  let eid := "release-" ++ fullName ++ "-" ++ toString r.releaseId
  { kind := .release
    eventId := eid
    skip := false
    ev := buildReleaseEvent (some cid) fullName r eid }

/-- One workflow-run iteration (lines 606-689): eventId derivation, head-branch
filter, normalized record. -/
def workflowItem (cid : Nat) (fullName : String) (filterBranches : List String)
    (run : RunData) : Item :=
  let eid := "workflow-" ++ fullName ++ "-" ++ toString run.runId
  { kind := .workflow
    eventId := eid
    skip := decide (filterBranches ≠ [] ∧ run.headBranch ∉ filterBranches)
    ev := buildWorkflowEvent (some cid) fullName run eid }

/-- One commit iteration (lines 705-748). -/
def commitItem (cid : Nat) (fullName : String) (branchName : String)
    (c : CommitData) : Item :=
  let eid := "commit-" ++ fullName ++ "-" ++ c.sha
  { kind := .commit
    eventId := eid
    skip := false
    ev := buildCommitEvent (some cid) fullName branchName c eid }

/-- One registry iteration (lines 759-825). -/
def registryItem (cid : Nat) (fullName : String) (pkg : PkgInfo) : Item :=
  let eid := "registry-" ++ pkg.name ++ "-" ++ toString pkg.versionId
  { kind := .registry
    eventId := eid
    skip := false
    ev := buildRegistryEvent (some cid) fullName pkg eid }

/-- The pull requests enumerated for one target: `prs[:limit]` (line 493). -/
def prItems (cid : Nat) (fullName : String) (filterBranches : List String)
    (limit : Nat) (pulls : List PRData) : List Item :=
  (pulls.take limit).map (prItem cid fullName filterBranches)

/-- The releases enumerated for one target: `releases[:limit]` (line 564). -/
def releaseItems (cid : Nat) (fullName : String) (limit : Nat)
    (releases : List ReleaseData) : List Item :=
  (releases.take limit).map (releaseItem cid fullName)

/-- The workflow runs enumerated for one target:
`list(repo.get_workflow_runs())[:limit]` (line 602); an exception there is
caught by the section's own handler (lines 693-696) and yields no items. -/
def workflowItems (cid : Nat) (fullName : String) (filterBranches : List String)
    (limit : Nat) (repo : RepoData) : List Item :=
  if repo.runsFetchFail then []
  else (repo.runs.take limit).map (workflowItem cid fullName filterBranches)

/-- The commits enumerated for one target (lines 698-751): only when a branch
allowlist is configured, one allowlisted branch at a time, `[:limit]` commits
per branch; a branch whose lookup raises is skipped (lines 749-751). -/
def commitItems (cid : Nat) (fullName : String) (branches : List String)
    (limit : Nat) (repo : RepoData) : List Item :=
  (branches.map (fun bn =>
    match repo.branches.find? (fun b => decide (b.name = bn)) with
    | none => []
    | some b => (b.commits.take limit).map (commitItem cid fullName bn))).flatten

/-- The registry package versions enumerated for one target (lines 753-759):
`_fetch_registry_packages` is called with its default limit of 20. -/
def registryItems (cid : Nat) (world : World) (fullName : String) : List Item :=
  (fetchRegistryPackages world (beforeSlash fullName) 20).map
    (registryItem cid fullName)

/-- All items one fully-processed target enumerates, in source order:
pull requests, releases, workflow runs, commits, registry versions. -/
def targetItems (cid : Nat) (world : World) (branches : List String)
    (limit : Nat) (repo : RepoData) : List Item :=
  prItems cid repo.fullName branches limit repo.pulls
    ++ releaseItems cid repo.fullName limit repo.releases
    ++ workflowItems cid repo.fullName branches limit repo
    ++ commitItems cid repo.fullName branches limit repo
    ++ registryItems cid world repo.fullName

/-- Processing of one target (lines 487-837): on a `GithubException` while
enumerating pull requests nothing was processed and the session is rolled
back; on one while enumerating releases the pull-request loop already ran (its
counter increments survive the rollback); otherwise all five sections run and
the target's staged rows are committed (line 831). -/
def processTarget (cid : Nat) (world : World) (branches : List String)
    (limit : Nat) (st : SyncState) (repo : RepoData) : SyncState :=
  match repo.failAt with
  | some TargetFail.pullsEnum => st.rollback
  | some TargetFail.releasesEnum =>
      ((prItems cid repo.fullName branches limit repo.pulls).foldl
        (processItem cid) st).rollback
  | none =>
      ((targetItems cid world branches limit repo).foldl
        (processItem cid) st).commitStaged

/-- Target enumeration (lines 477-485): configured repositories are fetched by
name, a name whose `get_repo` raises is skipped; with no configured list the
first 10 account repositories are used. -/
def reposToFetch (world : World) (repos : List String) : List RepoData :=
  if repos = [] then world.userRepos.take 10
  else repos.filterMap (fun n =>
    (world.repos.find? (fun p => decide (p.1 = n))).map (fun p => p.2))

/-- The initial session state over an existing store. -/
def initState (store : List StoredEvent) : SyncState :=
  { committed := store
    staged := []
    prFetched := 0
    relFetched := 0
    wfFetched := 0
    cFetched := 0
    regFetched := 0
    stored := 0 }

/-- Embeds `fetch_with_session` (connector.py lines 465-846): fold the
per-target processing over the enumerated targets. -/
def fetchWithSession (world : World) (store : List StoredEvent) (cid : Nat)
    (repos branches : List String) (limit : Nat) : SyncState :=
  (reposToFetch world repos).foldl (processTarget cid world branches limit)
    (initState store)

/-- Embeds the pull-request portion of the legacy
`GitHubConnector.fetch_and_store_changes` (connector.py lines 144-209): the
existence lookup is keyed on `(source, event_id)` (lines 151-154), the stored
row carries no `connection_id` (lines 182-207), and there is no branch
filter.  Only the pull-request loop is embedded; the other loops of that
method follow the same lookup pattern. -/
def processPRLegacy (fullName : String) (st : SyncState) (pr : PRData) :
    SyncState :=
  let st1 := { st with prFetched := st.prFetched + 1 }
  let eid := "pr-" ++ fullName ++ "-" ++ toString pr.number
  if (lookupSource (st1.committed ++ st1.staged) "github" eid).isSome then st1
  else { st1 with
          staged := st1.staged ++ [buildPREvent none fullName pr eid]
          stored := st1.stored + 1 }

/-- The configuration keys read by `sync_github` (connector.py lines 436-440).
The two spellings of the enterprise flag and of the base URL are collapsed
into one field each. -/
structure Config where
  token : String
  repos : String
  branches : String
  isEnterprise : Bool
  baseUrl : String
  deriving DecidableEq, Repr

/-- The comma-separated list parsing of lines 446 and 449: split, strip,
drop empties; an empty value yields the empty list. -/
def parseListConfig (s : String) : List String :=
  if s = "" then []
  else ((splitComma s).map strTrim).filter (fun r => decide (r ≠ ""))

/-- `base_url if (is_enterprise and base_url) else None` (line 452). -/
def enterpriseUrl (cfg : Config) : Option String :=
  if cfg.isEnterprise ∧ cfg.baseUrl ≠ "" then some cfg.baseUrl else none

/-- `GitHubConnector.test_connection` (lines 24-32): false without a client
(empty token), otherwise whether `get_user().login` succeeds. -/
def testConnection (world : World) (token : String) : Bool :=
  if token = "" then false else world.authOk

/-- Network calls made for the packages API of one organization: one list
call, plus one versions call per listed package when the list call succeeds. -/
def registryNetCalls (world : World) (orgName : String) : Nat :=
  match world.orgs.find? (fun p => decide (p.1 = orgName)) with
  | none => 1
  | some p => if p.2.packagesOk then 1 + (p.2.packages.take 10).length else 1

/-- Network calls made for one target: the enumeration calls of the sections
that run before the target aborts, the per-branch calls, and the registry
calls.  (Per-item enrichment calls are not counted; only zero-versus-nonzero
matters to the claims.) -/
def targetNetCalls (world : World) (branches : List String) (repo : RepoData) :
    Nat :=
  match repo.failAt with
  | some TargetFail.pullsEnum => 1
  | some TargetFail.releasesEnum => 2
  | none =>
      3 + branches.length + registryNetCalls world (beforeSlash repo.fullName)

/-- Network calls made by `fetch_with_session`: target resolution plus the
per-target calls. -/
def fetchNetCalls (world : World) (repos branches : List String) : Nat :=
  (if repos = [] then 1 else repos.length)
    + ((reposToFetch world repos).map (targetNetCalls world branches)).sum

/-- The value `sync_github` returns: either the `{"error": msg}` dictionary or
the `{"fetched": .., "stored": ..}` dictionary. -/
inductive SyncRet where
  | err (msg : String)
  | ok (fetched stored : Nat)
  deriving DecidableEq, Repr

/-- The observable outcome of one `sync_github` call: its return value, the
committed store afterwards, and how many network calls were made. -/
structure SyncOutcome where
  ret : SyncRet
  store : List StoredEvent
  netCalls : Nat
  deriving DecidableEq, Repr

/-- Embeds `sync_github` (connector.py lines 424-848): missing token aborts
with a configuration error and no network call; a failing connectivity test
aborts with an error after the single test call and no store access; otherwise
`fetch_with_session` runs with its default limit of 50. -/
def sync_github (world : World) (store : List StoredEvent) (cfg : Config)
    (connectionId : Nat) : SyncOutcome :=
  if cfg.token = "" then
    { ret := .err "No GitHub token configured", store := store, netCalls := 0 }
  else
    let repos := parseListConfig cfg.repos
    let branches := parseListConfig cfg.branches
    if testConnection world cfg.token then
      let st := fetchWithSession world store connectionId repos branches 50
      { ret := .ok st.fetched st.stored
        store := st.committed
        netCalls := 1 + fetchNetCalls world repos branches }
    else
      { ret := .err "Failed to connect to GitHub", store := store, netCalls := 1 }

/-- A row of the `connections` table, restricted to the columns
`poll_connection` reads and writes. -/
structure ConnectionRec where
  id : Nat
  name : String
  type : String
  config : Config
  enabled : Bool
  lastSync : Option Nat
  deriving DecidableEq, Repr

/-- The status strings `poll_connection` returns. -/
inductive PollStatus where
  | success
  | skipped
  | error
  deriving DecidableEq, Repr

/-- The observable outcome of one `poll_connection` call. -/
structure PollOut where
  status : PollStatus
  reason : Option String
  result : Option SyncRet
  store : List StoredEvent
  connections : List ConnectionRec
  netCalls : Nat
  deriving DecidableEq, Repr

/-- Embeds `poll_connection` (tasks.py lines 26-72): look the connection up by
id with `enabled == True`; a missing or disabled connection is skipped with
zero network calls and zero writes; a type with no importable connector module
is an error (the repository ships only the github connector); otherwise the
sync function runs and `last_sync` is set to now and committed, whatever
dictionary the sync returned. -/
def poll_connection (world : World) (connections : List ConnectionRec)
    (store : List StoredEvent) (now : Nat) (connectionId : Nat) : PollOut :=
  match connections.find? (fun c => decide (c.id = connectionId ∧ c.enabled)) with
  | none =>
      { status := .skipped
        reason := some "disabled or not found"
        result := none
        store := store
        connections := connections
        netCalls := 0 }
  | some conn =>
      if conn.type = "github" then
        let out := sync_github world store conn.config connectionId
        { status := .success
          reason := none
          result := some out.ret
          store := out.store
          connections := connections.map (fun c =>
            if c.id = connectionId then { c with lastSync := some now } else c)
          netCalls := out.netCalls }
      else
        { status := .error
          reason := some "module not found"
          result := none
          store := store
          connections := connections
          netCalls := 0 }

/-- The eventId formats stated by the spec for each kind, written from the
spec's words for comparison with the derivations of the source. -/
def specEventId (e : StoredEvent) : String :=
  match e.details with
  | .pull n _ _ _ _ _ _ => "pr-" ++ e.repository ++ "-" ++ toString n
  | .release i _ _ _ _ => "release-" ++ e.repository ++ "-" ++ toString i
  | .workflow i _ _ _ => "workflow-" ++ e.repository ++ "-" ++ toString i
  | .commit _ _ sha _ _ _ => "commit-" ++ e.repository ++ "-" ++ sha
  | .registry vid image _ _ => "registry-" ++ image ++ "-" ++ toString vid

/-- The dedup key of a stored row: the (connectionId, eventId) pair. -/
def evKey (e : StoredEvent) : Option Nat × String :=
  (e.connectionId, e.eventId)

/-- At most one row per (connectionId, eventId) pair. -/
def KeysNodup (l : List StoredEvent) : Prop :=
  (l.map evKey).Nodup

@[simp] theorem events_def (st : SyncState) :
    st.events = st.committed ++ st.staged := rfl

@[simp] theorem bumpFetched_committed (st : SyncState) (k : EventKind) :
    (bumpFetched st k).committed = st.committed := by
  cases k <;> rfl

@[simp] theorem bumpFetched_staged (st : SyncState) (k : EventKind) :
    (bumpFetched st k).staged = st.staged := by
  cases k <;> rfl

@[simp] theorem bumpFetched_stored (st : SyncState) (k : EventKind) :
    (bumpFetched st k).stored = st.stored := by
  cases k <;> rfl

theorem bumpFetched_prFetched (st : SyncState) (k : EventKind) :
    (bumpFetched st k).prFetched
      = st.prFetched + (if k = .pull then 1 else 0) := by
  cases k <;> simp [bumpFetched]

theorem bumpFetched_relFetched (st : SyncState) (k : EventKind) :
    (bumpFetched st k).relFetched
      = st.relFetched + (if k = .release then 1 else 0) := by
  cases k <;> simp [bumpFetched]

theorem bumpFetched_wfFetched (st : SyncState) (k : EventKind) :
    (bumpFetched st k).wfFetched
      = st.wfFetched + (if k = .workflow then 1 else 0) := by
  cases k <;> simp [bumpFetched]

theorem bumpFetched_cFetched (st : SyncState) (k : EventKind) :
    (bumpFetched st k).cFetched
      = st.cFetched + (if k = .commit then 1 else 0) := by
  cases k <;> simp [bumpFetched]

theorem bumpFetched_regFetched (st : SyncState) (k : EventKind) :
    (bumpFetched st k).regFetched
      = st.regFetched + (if k = .registry then 1 else 0) := by
  cases k <;> simp [bumpFetched]

theorem lookupKey_eq_none_iff (l : List StoredEvent) (k : Option Nat)
    (eid : String) :
    lookupKey l k eid = none
      ↔ ∀ e ∈ l, ¬(e.connectionId = k ∧ e.eventId = eid) := by
  simp [lookupKey, List.find?_eq_none]

theorem lookupKey_isSome_iff (l : List StoredEvent) (k : Option Nat)
    (eid : String) :
    (lookupKey l k eid).isSome
      ↔ ∃ e ∈ l, e.connectionId = k ∧ e.eventId = eid := by
  simp [lookupKey, List.find?_isSome]

theorem processItem_committed (cid : Nat) (st : SyncState) (it : Item) :
    (processItem cid st it).committed = st.committed := by
  unfold processItem
  dsimp only
  split
  · simp
  split
  · simp
  · simp

theorem processItem_staged_eq (cid : Nat) (st : SyncState) (it : Item) :
    (processItem cid st it).staged =
      if it.skip then st.staged
      else if (lookupKey st.events (some cid) it.eventId).isSome then st.staged
      else st.staged ++ [it.ev] := by
  unfold processItem
  dsimp only
  by_cases h1 : it.skip
  · simp [h1]
  · simp only [h1, if_false, Bool.false_eq_true, bumpFetched_committed,
      bumpFetched_staged, events_def]
    split <;> simp

theorem processItem_stored_eq (cid : Nat) (st : SyncState) (it : Item) :
    (processItem cid st it).stored =
      if it.skip then st.stored
      else if (lookupKey st.events (some cid) it.eventId).isSome then st.stored
      else st.stored + 1 := by
  unfold processItem
  dsimp only
  by_cases h1 : it.skip
  · simp [h1]
  · simp only [h1, if_false, Bool.false_eq_true, bumpFetched_committed,
      bumpFetched_staged, events_def]
    split <;> simp

theorem processItem_events_eq (cid : Nat) (st : SyncState) (it : Item) :
    (processItem cid st it).events =
      if it.skip then st.events
      else if (lookupKey st.events (some cid) it.eventId).isSome then st.events
      else st.events ++ [it.ev] := by
  simp only [events_def, processItem_committed, processItem_staged_eq]
  split
  · rfl
  split
  · rfl
  · simp

theorem processItem_prFetched (cid : Nat) (st : SyncState) (it : Item) :
    (processItem cid st it).prFetched
      = st.prFetched + (if it.kind = .pull then 1 else 0) := by
  unfold processItem
  dsimp only
  split
  · exact bumpFetched_prFetched st it.kind
  split
  · exact bumpFetched_prFetched st it.kind
  · simpa using bumpFetched_prFetched st it.kind

theorem processItem_relFetched (cid : Nat) (st : SyncState) (it : Item) :
    (processItem cid st it).relFetched
      = st.relFetched + (if it.kind = .release then 1 else 0) := by
  unfold processItem
  dsimp only
  split
  · exact bumpFetched_relFetched st it.kind
  split
  · exact bumpFetched_relFetched st it.kind
  · simpa using bumpFetched_relFetched st it.kind

theorem processItem_wfFetched (cid : Nat) (st : SyncState) (it : Item) :
    (processItem cid st it).wfFetched
      = st.wfFetched + (if it.kind = .workflow then 1 else 0) := by
  unfold processItem
  dsimp only
  split
  · exact bumpFetched_wfFetched st it.kind
  split
  · exact bumpFetched_wfFetched st it.kind
  · simpa using bumpFetched_wfFetched st it.kind

theorem processItem_cFetched (cid : Nat) (st : SyncState) (it : Item) :
    (processItem cid st it).cFetched
      = st.cFetched + (if it.kind = .commit then 1 else 0) := by
  unfold processItem
  dsimp only
  split
  · exact bumpFetched_cFetched st it.kind
  split
  · exact bumpFetched_cFetched st it.kind
  · simpa using bumpFetched_cFetched st it.kind

theorem processItem_regFetched (cid : Nat) (st : SyncState) (it : Item) :
    (processItem cid st it).regFetched
      = st.regFetched + (if it.kind = .registry then 1 else 0) := by
  unfold processItem
  dsimp only
  split
  · exact bumpFetched_regFetched st it.kind
  split
  · exact bumpFetched_regFetched st it.kind
  · simpa using bumpFetched_regFetched st it.kind

theorem processItem_staged_origin (cid : Nat) (st : SyncState) (it : Item) :
    ∃ u, (processItem cid st it).staged = st.staged ++ u ∧
      ∀ e ∈ u, it.skip = false ∧ e = it.ev := by
  rw [processItem_staged_eq]
  split
  · exact ⟨[], by simp, by simp⟩
  · split
    · exact ⟨[], by simp, by simp⟩
    · next h _ =>
      refine ⟨[it.ev], rfl, ?_⟩
      intro e he
      rw [List.mem_singleton] at he
      exact ⟨by simpa using h, he⟩

theorem processItem_events_mono (cid : Nat) (st : SyncState) (it : Item)
    (e : StoredEvent) (he : e ∈ st.events) :
    e ∈ (processItem cid st it).events := by
  rw [processItem_events_eq]
  split
  · exact he
  split
  · exact he
  · exact List.mem_append_left _ he

theorem processItem_nodup (cid : Nat) (st : SyncState) (it : Item)
    (h1 : it.ev.connectionId = some cid) (h2 : it.ev.eventId = it.eventId)
    (hnd : KeysNodup st.events) :
    KeysNodup (processItem cid st it).events := by
  rw [processItem_events_eq]
  split
  · exact hnd
  split
  · exact hnd
  · next hnoskip hlook =>
    have hnone : lookupKey st.events (some cid) it.eventId = none :=
      Option.not_isSome_iff_eq_none.mp hlook
    have hkey : evKey it.ev ∉ st.events.map evKey := by
      intro hmem
      obtain ⟨e, hel, hek⟩ := List.mem_map.mp hmem
      have := (lookupKey_eq_none_iff _ _ _).mp hnone e hel
      apply this
      have hpair : e.connectionId = it.ev.connectionId ∧ e.eventId = it.ev.eventId := by
        have := congrArg Prod.fst hek
        have := congrArg Prod.snd hek
        exact ⟨by simpa [evKey] using congrArg Prod.fst hek,
          by simpa [evKey] using congrArg Prod.snd hek⟩
      exact ⟨hpair.1.trans h1, hpair.2.trans h2⟩
    unfold KeysNodup at hnd ⊢
    rw [List.map_append]
    simp only [List.map_cons, List.map_nil]
    rw [List.nodup_append]
    exact ⟨hnd, List.nodup_singleton _, by
      intro a ha hb
      rw [List.mem_singleton] at hb
      exact hkey (hb ▸ ha)⟩

theorem processItem_covers (cid : Nat) (st : SyncState) (it : Item)
    (h1 : it.ev.connectionId = some cid) (h2 : it.ev.eventId = it.eventId)
    (hskip : it.skip = false) :
    ∃ e ∈ (processItem cid st it).events,
      e.connectionId = some cid ∧ e.eventId = it.eventId := by
  rw [processItem_events_eq, hskip]
  simp only [Bool.false_eq_true, if_false]
  by_cases hl : (lookupKey st.events (some cid) it.eventId).isSome
  · obtain ⟨e, hel, hc, hi⟩ := (lookupKey_isSome_iff _ _ _).mp hl
    rw [if_pos hl]
    exact ⟨e, hel, hc, hi⟩
  · rw [if_neg hl]
    exact ⟨it.ev, List.mem_append_right _ (List.mem_singleton_self _), h1, h2⟩

theorem processItem_frozen (cid : Nat) (st : SyncState) (it : Item)
    (h : it.skip = true ∨ (lookupKey st.events (some cid) it.eventId).isSome) :
    (processItem cid st it).committed = st.committed ∧
    (processItem cid st it).staged = st.staged ∧
    (processItem cid st it).stored = st.stored := by
  refine ⟨processItem_committed cid st it, ?_, ?_⟩
  · rw [processItem_staged_eq]
    rcases h with h | h
    · rw [if_pos h]
    · by_cases hs : it.skip
      · rw [if_pos hs]
      · rw [if_neg hs, if_pos h]
  · rw [processItem_stored_eq]
    rcases h with h | h
    · rw [if_pos h]
    · by_cases hs : it.skip
      · rw [if_pos hs]
      · rw [if_neg hs, if_pos h]

theorem foldl_processItem_committed (cid : Nat) (items : List Item)
    (st : SyncState) :
    (items.foldl (processItem cid) st).committed = st.committed := by
  induction items generalizing st with
  | nil => rfl
  | cons it rest ih =>
    rw [List.foldl_cons, ih, processItem_committed]

theorem foldl_processItem_staged_origin (cid : Nat) (items : List Item)
    (st : SyncState) :
    ∃ t, (items.foldl (processItem cid) st).staged = st.staged ++ t ∧
      ∀ e ∈ t, ∃ it ∈ items, it.skip = false ∧ e = it.ev := by
  induction items generalizing st with
  | nil => exact ⟨[], by simp, by simp⟩
  | cons it rest ih =>
    obtain ⟨u, hu, hu2⟩ := processItem_staged_origin cid st it
    obtain ⟨t, ht, ht2⟩ := ih (processItem cid st it)
    refine ⟨u ++ t, ?_, ?_⟩
    · rw [List.foldl_cons, ht, hu, List.append_assoc]
    · intro e he
      rcases List.mem_append.mp he with h | h
      · exact ⟨it, List.mem_cons_self _ _, (hu2 e h).1, (hu2 e h).2⟩
      · obtain ⟨it2, hit2, hs, hev⟩ := ht2 e h
        exact ⟨it2, List.mem_cons_of_mem _ hit2, hs, hev⟩

theorem foldl_processItem_events_mono (cid : Nat) (items : List Item)
    (st : SyncState) (e : StoredEvent) (he : e ∈ st.events) :
    e ∈ (items.foldl (processItem cid) st).events := by
  induction items generalizing st with
  | nil => exact he
  | cons it rest ih =>
    rw [List.foldl_cons]
    exact ih _ (processItem_events_mono cid st it e he)

theorem foldl_processItem_nodup (cid : Nat) (items : List Item)
    (st : SyncState)
    (hwf : ∀ it ∈ items,
      it.ev.connectionId = some cid ∧ it.ev.eventId = it.eventId)
    (hnd : KeysNodup st.events) :
    KeysNodup (items.foldl (processItem cid) st).events := by
  induction items generalizing st with
  | nil => exact hnd
  | cons it rest ih =>
    rw [List.foldl_cons]
    refine ih _ (fun i hi => hwf i (List.mem_cons_of_mem _ hi)) ?_
    obtain ⟨h1, h2⟩ := hwf it (List.mem_cons_self _ _)
    exact processItem_nodup cid st it h1 h2 hnd

theorem foldl_processItem_covers (cid : Nat) (items : List Item)
    (st : SyncState)
    (hwf : ∀ it ∈ items,
      it.ev.connectionId = some cid ∧ it.ev.eventId = it.eventId) :
    ∀ it ∈ items, it.skip = false →
      ∃ e ∈ (items.foldl (processItem cid) st).events,
        e.connectionId = some cid ∧ e.eventId = it.eventId := by
  induction items generalizing st with
  | nil => intro it h; exact absurd h (List.not_mem_nil it)
  | cons it0 rest ih =>
    intro it hmem hskip
    rw [List.foldl_cons]
    rcases List.mem_cons.mp hmem with h | h
    · subst h
      obtain ⟨h1, h2⟩ := hwf it (List.mem_cons_self _ _)
      obtain ⟨e, hel, hc, hi⟩ := processItem_covers cid st it h1 h2 hskip
      exact ⟨e, foldl_processItem_events_mono cid rest _ e hel, hc, hi⟩
    · exact ih _ (fun i hi => hwf i (List.mem_cons_of_mem _ hi)) it h hskip

theorem foldl_processItem_frozen (cid : Nat) (items : List Item)
    (st : SyncState)
    (h : ∀ it ∈ items,
      it.skip = true ∨ (lookupKey st.events (some cid) it.eventId).isSome) :
    (items.foldl (processItem cid) st).committed = st.committed ∧
    (items.foldl (processItem cid) st).staged = st.staged ∧
    (items.foldl (processItem cid) st).stored = st.stored := by
  induction items generalizing st with
  | nil => exact ⟨rfl, rfl, rfl⟩
  | cons it rest ih =>
    obtain ⟨hc, hs, ho⟩ :=
      processItem_frozen cid st it (h it (List.mem_cons_self _ _))
    have hev : (processItem cid st it).events = st.events := by
      rw [events_def, events_def, hc, hs]
    rw [List.foldl_cons]
    obtain ⟨ihc, ihs, iho⟩ := ih (processItem cid st it)
      (fun i hi => by rw [hev]; exact h i (List.mem_cons_of_mem _ hi))
    exact ⟨ihc.trans hc, ihs.trans hs, iho.trans ho⟩

theorem foldl_processItem_prFetched (cid : Nat) (items : List Item)
    (st : SyncState) :
    (items.foldl (processItem cid) st).prFetched
      = st.prFetched + items.countP (fun it => decide (it.kind = .pull)) := by
  induction items generalizing st with
  | nil => simp
  | cons it rest ih =>
    rw [List.foldl_cons, ih, processItem_prFetched, List.countP_cons]
    by_cases hk : it.kind = .pull <;> simp [hk] <;> omega

theorem foldl_processItem_relFetched (cid : Nat) (items : List Item)
    (st : SyncState) :
    (items.foldl (processItem cid) st).relFetched
      = st.relFetched + items.countP (fun it => decide (it.kind = .release)) := by
  induction items generalizing st with
  | nil => simp
  | cons it rest ih =>
    rw [List.foldl_cons, ih, processItem_relFetched, List.countP_cons]
    by_cases hk : it.kind = .release <;> simp [hk] <;> omega

theorem foldl_processItem_wfFetched (cid : Nat) (items : List Item)
    (st : SyncState) :
    (items.foldl (processItem cid) st).wfFetched
      = st.wfFetched + items.countP (fun it => decide (it.kind = .workflow)) := by
  induction items generalizing st with
  | nil => simp
  | cons it rest ih =>
    rw [List.foldl_cons, ih, processItem_wfFetched, List.countP_cons]
    by_cases hk : it.kind = .workflow <;> simp [hk] <;> omega

theorem foldl_processItem_cFetched (cid : Nat) (items : List Item)
    (st : SyncState) :
    (items.foldl (processItem cid) st).cFetched
      = st.cFetched + items.countP (fun it => decide (it.kind = .commit)) := by
  induction items generalizing st with
  | nil => simp
  | cons it rest ih =>
    rw [List.foldl_cons, ih, processItem_cFetched, List.countP_cons]
    by_cases hk : it.kind = .commit <;> simp [hk] <;> omega

theorem foldl_processItem_regFetched (cid : Nat) (items : List Item)
    (st : SyncState) :
    (items.foldl (processItem cid) st).regFetched
      = st.regFetched + items.countP (fun it => decide (it.kind = .registry)) := by
  induction items generalizing st with
  | nil => simp
  | cons it rest ih =>
    rw [List.foldl_cons, ih, processItem_regFetched, List.countP_cons]
    by_cases hk : it.kind = .registry <;> simp [hk] <;> omega

/-- Well-formedness of the items the five builders produce: the staged row
carries the sync's connection id, the loop's derived eventId, and that eventId
has the spec's format for the row's kind. -/
def ItemWF (cid : Nat) (it : Item) : Prop :=
  it.ev.connectionId = some cid ∧ it.ev.eventId = it.eventId ∧
    it.ev.eventId = specEventId it.ev

theorem prItem_wf (cid : Nat) (fullName : String) (fb : List String)
    (pr : PRData) : ItemWF cid (prItem cid fullName fb pr) :=
  ⟨rfl, rfl, rfl⟩

theorem releaseItem_wf (cid : Nat) (fullName : String) (r : ReleaseData) :
    ItemWF cid (releaseItem cid fullName r) :=
  ⟨rfl, rfl, rfl⟩

theorem workflowItem_wf (cid : Nat) (fullName : String) (fb : List String)
    (run : RunData) : ItemWF cid (workflowItem cid fullName fb run) :=
  ⟨rfl, rfl, rfl⟩

theorem commitItem_wf (cid : Nat) (fullName : String) (bn : String)
    (c : CommitData) : ItemWF cid (commitItem cid fullName bn c) :=
  ⟨rfl, rfl, rfl⟩

theorem registryItem_wf (cid : Nat) (fullName : String) (pkg : PkgInfo) :
    ItemWF cid (registryItem cid fullName pkg) :=
  ⟨rfl, rfl, rfl⟩

theorem prItems_wf (cid : Nat) (fullName : String) (fb : List String)
    (limit : Nat) (pulls : List PRData) :
    ∀ it ∈ prItems cid fullName fb limit pulls, ItemWF cid it := by
  intro it hit
  obtain ⟨pr, _, rfl⟩ := List.mem_map.mp hit
  exact prItem_wf cid fullName fb pr

theorem releaseItems_wf (cid : Nat) (fullName : String) (limit : Nat)
    (releases : List ReleaseData) :
    ∀ it ∈ releaseItems cid fullName limit releases, ItemWF cid it := by
  intro it hit
  obtain ⟨r, _, rfl⟩ := List.mem_map.mp hit
  exact releaseItem_wf cid fullName r

theorem workflowItems_wf (cid : Nat) (fullName : String) (fb : List String)
    (limit : Nat) (repo : RepoData) :
    ∀ it ∈ workflowItems cid fullName fb limit repo, ItemWF cid it := by
  intro it hit
  unfold workflowItems at hit
  split at hit
  · exact absurd hit (List.not_mem_nil it)
  · obtain ⟨run, _, rfl⟩ := List.mem_map.mp hit
    exact workflowItem_wf cid fullName fb run

theorem commitItems_mem (cid : Nat) (fullName : String) (branches : List String)
    (limit : Nat) (repo : RepoData) (it : Item)
    (hit : it ∈ commitItems cid fullName branches limit repo) :
    ∃ bn ∈ branches, ∃ b ∈ repo.branches, b.name = bn ∧
      ∃ c ∈ b.commits.take limit, it = commitItem cid fullName bn c := by
  unfold commitItems at hit
  obtain ⟨l, hl, hitl⟩ := List.mem_join.mp hit
  obtain ⟨bn, hbn, heq⟩ := List.mem_map.mp hl
  subst heq
  rcases hfind : repo.branches.find? (fun b => decide (b.name = bn)) with _ | b
  · rw [hfind] at hitl
    exact absurd hitl (List.not_mem_nil it)
  · rw [hfind] at hitl
    obtain ⟨c, hc, rfl⟩ := List.mem_map.mp hitl
    have hbmem := List.mem_of_find?_eq_some hfind
    have hbname : b.name = bn := by
      have := List.find?_some hfind
      simpa using this
    exact ⟨bn, hbn, b, hbmem, hbname, c, hc, rfl⟩

theorem commitItems_wf (cid : Nat) (fullName : String) (branches : List String)
    (limit : Nat) (repo : RepoData) :
    ∀ it ∈ commitItems cid fullName branches limit repo, ItemWF cid it := by
  intro it hit
  obtain ⟨bn, _, b, _, _, c, _, rfl⟩ :=
    commitItems_mem cid fullName branches limit repo it hit
  exact commitItem_wf cid fullName bn c

theorem registryItems_wf (cid : Nat) (world : World) (fullName : String) :
    ∀ it ∈ registryItems cid world fullName, ItemWF cid it := by
  intro it hit
  obtain ⟨pkg, _, rfl⟩ := List.mem_map.mp hit
  exact registryItem_wf cid fullName pkg

theorem targetItems_wf (cid : Nat) (world : World) (branches : List String)
    (limit : Nat) (repo : RepoData) :
    ∀ it ∈ targetItems cid world branches limit repo, ItemWF cid it := by
  intro it hit
  unfold targetItems at hit
  rcases List.mem_append.mp hit with h | h
  rotate_left
  · exact registryItems_wf cid world repo.fullName it h
  rcases List.mem_append.mp h with h | h
  rotate_left
  · exact commitItems_wf cid repo.fullName branches limit repo it h
  rcases List.mem_append.mp h with h | h
  rotate_left
  · exact workflowItems_wf cid repo.fullName branches limit repo it h
  rcases List.mem_append.mp h with h | h
  · exact prItems_wf cid repo.fullName branches limit repo.pulls it h
  · exact releaseItems_wf cid repo.fullName limit repo.releases it h

@[simp] theorem rollback_committed (st : SyncState) :
    st.rollback.committed = st.committed := rfl

@[simp] theorem rollback_staged (st : SyncState) :
    st.rollback.staged = [] := rfl

@[simp] theorem rollback_stored (st : SyncState) :
    st.rollback.stored = st.stored := rfl

@[simp] theorem commitStaged_committed (st : SyncState) :
    st.commitStaged.committed = st.committed ++ st.staged := rfl

@[simp] theorem commitStaged_staged (st : SyncState) :
    st.commitStaged.staged = [] := rfl

@[simp] theorem commitStaged_stored (st : SyncState) :
    st.commitStaged.stored = st.stored := rfl

theorem processTarget_staged (cid : Nat) (world : World)
    (branches : List String) (limit : Nat) (st : SyncState) (repo : RepoData) :
    (processTarget cid world branches limit st repo).staged = [] := by
  unfold processTarget
  split <;> rfl

theorem processTarget_committed_origin (cid : Nat) (world : World)
    (branches : List String) (limit : Nat) (st : SyncState) (repo : RepoData)
    (hst : st.staged = []) :
    ∃ t, (processTarget cid world branches limit st repo).committed
        = st.committed ++ t ∧
      ∀ e ∈ t, ∃ it ∈ targetItems cid world branches limit repo,
        it.skip = false ∧ e = it.ev := by
  unfold processTarget
  split
  · exact ⟨[], by simp, by simp⟩
  · exact ⟨[], by simp [foldl_processItem_committed], by simp⟩
  · obtain ⟨t, ht, ht2⟩ := foldl_processItem_staged_origin cid
      (targetItems cid world branches limit repo) st
    refine ⟨t, ?_, ?_⟩
    · rw [commitStaged_committed, foldl_processItem_committed, ht, hst,
        List.nil_append]
    · intro e he
      obtain ⟨it, hit, hs, hev⟩ := ht2 e he
      exact ⟨it, hit, hs, hev⟩

theorem processTarget_mono (cid : Nat) (world : World)
    (branches : List String) (limit : Nat) (st : SyncState) (repo : RepoData)
    (hst : st.staged = []) (e : StoredEvent) (he : e ∈ st.committed) :
    e ∈ (processTarget cid world branches limit st repo).committed := by
  obtain ⟨t, ht, _⟩ :=
    processTarget_committed_origin cid world branches limit st repo hst
  rw [ht]
  exact List.mem_append_left _ he

theorem processTarget_nodup (cid : Nat) (world : World)
    (branches : List String) (limit : Nat) (st : SyncState) (repo : RepoData)
    (hst : st.staged = []) (hnd : KeysNodup st.committed) :
    KeysNodup (processTarget cid world branches limit st repo).committed := by
  unfold processTarget
  split
  · simpa using hnd
  · simpa [foldl_processItem_committed] using hnd
  · rw [commitStaged_committed]
    have hev : st.events = st.committed := by
      rw [events_def, hst, List.append_nil]
    have := foldl_processItem_nodup cid
      (targetItems cid world branches limit repo) st
      (fun it hit => ⟨(targetItems_wf cid world branches limit repo it hit).1,
        (targetItems_wf cid world branches limit repo it hit).2.1⟩)
      (by rw [hev]; exact hnd)
    rw [events_def] at this
    exact this

theorem processTarget_covers (cid : Nat) (world : World)
    (branches : List String) (limit : Nat) (st : SyncState) (repo : RepoData)
    (hfail : repo.failAt = none) (hst : st.staged = []) :
    ∀ it ∈ targetItems cid world branches limit repo, it.skip = false →
      ∃ e ∈ (processTarget cid world branches limit st repo).committed,
        e.connectionId = some cid ∧ e.eventId = it.eventId := by
  intro it hit hskip
  unfold processTarget
  rw [hfail]
  obtain ⟨e, hel, hc, hi⟩ := foldl_processItem_covers cid
    (targetItems cid world branches limit repo) st
    (fun i hi => ⟨(targetItems_wf cid world branches limit repo i hi).1,
      (targetItems_wf cid world branches limit repo i hi).2.1⟩)
    it hit hskip
  rw [events_def] at hel
  refine ⟨e, ?_, hc, hi⟩
  rw [commitStaged_committed]
  exact hel

theorem processTarget_frozen (cid : Nat) (world : World)
    (branches : List String) (limit : Nat) (st : SyncState) (repo : RepoData)
    (hfail : repo.failAt = none) (hst : st.staged = [])
    (h : ∀ it ∈ targetItems cid world branches limit repo,
      it.skip = true ∨ (lookupKey st.committed (some cid) it.eventId).isSome) :
    (processTarget cid world branches limit st repo).committed = st.committed ∧
    (processTarget cid world branches limit st repo).staged = [] ∧
    (processTarget cid world branches limit st repo).stored = st.stored := by
  unfold processTarget
  rw [hfail]
  have hev : st.events = st.committed := by
    rw [events_def, hst, List.append_nil]
  obtain ⟨hc, hs, ho⟩ := foldl_processItem_frozen cid
    (targetItems cid world branches limit repo) st
    (by rw [hev]; exact h)
  refine ⟨?_, rfl, by simpa using ho⟩
  rw [commitStaged_committed, hc, hs, hst, List.append_nil]

/-- The number of items of one kind that one target contributes to the fetched
counter, by failure mode. -/
def repoKindCount (k : EventKind) (cid : Nat) (world : World)
    (branches : List String) (limit : Nat) (repo : RepoData) : Nat :=
  match repo.failAt with
  | some TargetFail.pullsEnum => 0
  | some TargetFail.releasesEnum =>
      (prItems cid repo.fullName branches limit repo.pulls).countP
        (fun it => decide (it.kind = k))
  | none =>
      (targetItems cid world branches limit repo).countP
        (fun it => decide (it.kind = k))

theorem processTarget_prFetched (cid : Nat) (world : World)
    (branches : List String) (limit : Nat) (st : SyncState) (repo : RepoData) :
    (processTarget cid world branches limit st repo).prFetched
      = st.prFetched + repoKindCount .pull cid world branches limit repo := by
  unfold processTarget repoKindCount
  split <;> simp [SyncState.rollback, SyncState.commitStaged,
    foldl_processItem_prFetched]

theorem processTarget_relFetched (cid : Nat) (world : World)
    (branches : List String) (limit : Nat) (st : SyncState) (repo : RepoData) :
    (processTarget cid world branches limit st repo).relFetched
      = st.relFetched + repoKindCount .release cid world branches limit repo := by
  unfold processTarget repoKindCount
  split <;> simp [SyncState.rollback, SyncState.commitStaged,
    foldl_processItem_relFetched]

theorem processTarget_wfFetched (cid : Nat) (world : World)
    (branches : List String) (limit : Nat) (st : SyncState) (repo : RepoData) :
    (processTarget cid world branches limit st repo).wfFetched
      = st.wfFetched + repoKindCount .workflow cid world branches limit repo := by
  unfold processTarget repoKindCount
  split <;> simp [SyncState.rollback, SyncState.commitStaged,
    foldl_processItem_wfFetched]

theorem processTarget_cFetched (cid : Nat) (world : World)
    (branches : List String) (limit : Nat) (st : SyncState) (repo : RepoData) :
    (processTarget cid world branches limit st repo).cFetched
      = st.cFetched + repoKindCount .commit cid world branches limit repo := by
  unfold processTarget repoKindCount
  split <;> simp [SyncState.rollback, SyncState.commitStaged,
    foldl_processItem_cFetched]

theorem processTarget_regFetched (cid : Nat) (world : World)
    (branches : List String) (limit : Nat) (st : SyncState) (repo : RepoData) :
    (processTarget cid world branches limit st repo).regFetched
      = st.regFetched + repoKindCount .registry cid world branches limit repo := by
  unfold processTarget repoKindCount
  split <;> simp [SyncState.rollback, SyncState.commitStaged,
    foldl_processItem_regFetched]

theorem foldl_processTarget_staged (cid : Nat) (world : World)
    (branches : List String) (limit : Nat) (rs : List RepoData)
    (st : SyncState) (hst : st.staged = []) :
    (rs.foldl (processTarget cid world branches limit) st).staged = [] := by
  induction rs generalizing st with
  | nil => exact hst
  | cons r rest ih =>
    rw [List.foldl_cons]
    exact ih _ (processTarget_staged cid world branches limit st r)

theorem foldl_processTarget_committed_origin (cid : Nat) (world : World)
    (branches : List String) (limit : Nat) (rs : List RepoData)
    (st : SyncState) (hst : st.staged = []) :
    ∃ t, (rs.foldl (processTarget cid world branches limit) st).committed
        = st.committed ++ t ∧
      ∀ e ∈ t, ∃ repo ∈ rs, ∃ it ∈ targetItems cid world branches limit repo,
        it.skip = false ∧ e = it.ev := by
  induction rs generalizing st with
  | nil => exact ⟨[], by simp, by simp⟩
  | cons r rest ih =>
    obtain ⟨u, hu, hu2⟩ :=
      processTarget_committed_origin cid world branches limit st r hst
    obtain ⟨t, ht, ht2⟩ := ih (processTarget cid world branches limit st r)
      (processTarget_staged cid world branches limit st r)
    refine ⟨u ++ t, ?_, ?_⟩
    · rw [List.foldl_cons, ht, hu, List.append_assoc]
    · intro e he
      rcases List.mem_append.mp he with h | h
      · obtain ⟨it, hit, hs, hev⟩ := hu2 e h
        exact ⟨r, List.mem_cons_self _ _, it, hit, hs, hev⟩
      · obtain ⟨repo, hrepo, it, hit, hs, hev⟩ := ht2 e h
        exact ⟨repo, List.mem_cons_of_mem _ hrepo, it, hit, hs, hev⟩

theorem foldl_processTarget_mono (cid : Nat) (world : World)
    (branches : List String) (limit : Nat) (rs : List RepoData)
    (st : SyncState) (hst : st.staged = []) (e : StoredEvent)
    (he : e ∈ st.committed) :
    e ∈ (rs.foldl (processTarget cid world branches limit) st).committed := by
  obtain ⟨t, ht, _⟩ :=
    foldl_processTarget_committed_origin cid world branches limit rs st hst
  rw [ht]
  exact List.mem_append_left _ he

theorem foldl_processTarget_nodup (cid : Nat) (world : World)
    (branches : List String) (limit : Nat) (rs : List RepoData)
    (st : SyncState) (hst : st.staged = []) (hnd : KeysNodup st.committed) :
    KeysNodup (rs.foldl (processTarget cid world branches limit) st).committed := by
  induction rs generalizing st with
  | nil => exact hnd
  | cons r rest ih =>
    rw [List.foldl_cons]
    exact ih _ (processTarget_staged cid world branches limit st r)
      (processTarget_nodup cid world branches limit st r hst hnd)

theorem foldl_processTarget_covers (cid : Nat) (world : World)
    (branches : List String) (limit : Nat) (rs : List RepoData)
    (st : SyncState) (hfail : ∀ r ∈ rs, r.failAt = none)
    (hst : st.staged = []) :
    ∀ r ∈ rs, ∀ it ∈ targetItems cid world branches limit r, it.skip = false →
      ∃ e ∈ (rs.foldl (processTarget cid world branches limit) st).committed,
        e.connectionId = some cid ∧ e.eventId = it.eventId := by
  induction rs generalizing st with
  | nil => intro r h; exact absurd h (List.not_mem_nil r)
  | cons r0 rest ih =>
    intro r hmem it hit hskip
    rw [List.foldl_cons]
    rcases List.mem_cons.mp hmem with h | h
    · subst h
      obtain ⟨e, hel, hc, hi⟩ := processTarget_covers cid world branches limit
        st r (hfail r (List.mem_cons_self _ _)) hst it hit hskip
      exact ⟨e, foldl_processTarget_mono cid world branches limit rest _
        (processTarget_staged cid world branches limit st r) e hel, hc, hi⟩
    · exact ih _ (fun x hx => hfail x (List.mem_cons_of_mem _ hx))
        (processTarget_staged cid world branches limit st r0) r h it hit hskip

theorem foldl_processTarget_frozen (cid : Nat) (world : World)
    (branches : List String) (limit : Nat) (rs : List RepoData)
    (st : SyncState) (hfail : ∀ r ∈ rs, r.failAt = none)
    (hst : st.staged = [])
    (h : ∀ r ∈ rs, ∀ it ∈ targetItems cid world branches limit r,
      it.skip = true ∨ (lookupKey st.committed (some cid) it.eventId).isSome) :
    (rs.foldl (processTarget cid world branches limit) st).committed
        = st.committed ∧
    (rs.foldl (processTarget cid world branches limit) st).staged = [] ∧
    (rs.foldl (processTarget cid world branches limit) st).stored = st.stored := by
  induction rs generalizing st with
  | nil => exact ⟨rfl, hst, rfl⟩
  | cons r rest ih =>
    obtain ⟨hc, hs, ho⟩ := processTarget_frozen cid world branches limit st r
      (hfail r (List.mem_cons_self _ _)) hst
      (h r (List.mem_cons_self _ _))
    rw [List.foldl_cons]
    obtain ⟨ihc, ihs, iho⟩ := ih (processTarget cid world branches limit st r)
      (fun x hx => hfail x (List.mem_cons_of_mem _ hx)) hs
      (fun x hx it hit => by rw [hc]; exact h x (List.mem_cons_of_mem _ hx) it hit)
    exact ⟨ihc.trans hc, ihs, iho.trans ho⟩

theorem foldl_processTarget_prFetched (cid : Nat) (world : World)
    (branches : List String) (limit : Nat) (rs : List RepoData)
    (st : SyncState) :
    (rs.foldl (processTarget cid world branches limit) st).prFetched
      = st.prFetched
        + (rs.map (repoKindCount .pull cid world branches limit)).sum := by
  induction rs generalizing st with
  | nil => simp
  | cons r rest ih =>
    rw [List.foldl_cons, ih, processTarget_prFetched, List.map_cons,
      List.sum_cons]
    omega

theorem foldl_processTarget_relFetched (cid : Nat) (world : World)
    (branches : List String) (limit : Nat) (rs : List RepoData)
    (st : SyncState) :
    (rs.foldl (processTarget cid world branches limit) st).relFetched
      = st.relFetched
        + (rs.map (repoKindCount .release cid world branches limit)).sum := by
  induction rs generalizing st with
  | nil => simp
  | cons r rest ih =>
    rw [List.foldl_cons, ih, processTarget_relFetched, List.map_cons,
      List.sum_cons]
    omega

theorem foldl_processTarget_wfFetched (cid : Nat) (world : World)
    (branches : List String) (limit : Nat) (rs : List RepoData)
    (st : SyncState) :
    (rs.foldl (processTarget cid world branches limit) st).wfFetched
      = st.wfFetched
        + (rs.map (repoKindCount .workflow cid world branches limit)).sum := by
  induction rs generalizing st with
  | nil => simp
  | cons r rest ih =>
    rw [List.foldl_cons, ih, processTarget_wfFetched, List.map_cons,
      List.sum_cons]
    omega

theorem foldl_processTarget_cFetched (cid : Nat) (world : World)
    (branches : List String) (limit : Nat) (rs : List RepoData)
    (st : SyncState) :
    (rs.foldl (processTarget cid world branches limit) st).cFetched
      = st.cFetched
        + (rs.map (repoKindCount .commit cid world branches limit)).sum := by
  induction rs generalizing st with
  | nil => simp
  | cons r rest ih =>
    rw [List.foldl_cons, ih, processTarget_cFetched, List.map_cons,
      List.sum_cons]
    omega

theorem foldl_processTarget_regFetched (cid : Nat) (world : World)
    (branches : List String) (limit : Nat) (rs : List RepoData)
    (st : SyncState) :
    (rs.foldl (processTarget cid world branches limit) st).regFetched
      = st.regFetched
        + (rs.map (repoKindCount .registry cid world branches limit)).sum := by
  induction rs generalizing st with
  | nil => simp
  | cons r rest ih =>
    rw [List.foldl_cons, ih, processTarget_regFetched, List.map_cons,
      List.sum_cons]
    omega

/-- The fetched counter of a whole run is a function of the upstream data and
configuration alone, not of the store contents. -/
theorem fetchWithSession_fetched (world : World) (store : List StoredEvent)
    (cid : Nat) (repos branches : List String) (limit : Nat) :
    (fetchWithSession world store cid repos branches limit).fetched
      = ((reposToFetch world repos).map
          (repoKindCount .pull cid world branches limit)).sum
        + ((reposToFetch world repos).map
            (repoKindCount .release cid world branches limit)).sum
        + ((reposToFetch world repos).map
            (repoKindCount .workflow cid world branches limit)).sum
        + ((reposToFetch world repos).map
            (repoKindCount .commit cid world branches limit)).sum
        + ((reposToFetch world repos).map
            (repoKindCount .registry cid world branches limit)).sum := by
  unfold fetchWithSession SyncState.fetched
  rw [foldl_processTarget_prFetched, foldl_processTarget_relFetched,
    foldl_processTarget_wfFetched, foldl_processTarget_cFetched,
    foldl_processTarget_regFetched]
  simp [initState]

theorem countP_kind_const (k k0 : EventKind) (items : List Item)
    (hall : ∀ it ∈ items, it.kind = k0) :
    items.countP (fun it => decide (it.kind = k))
      = if k0 = k then items.length else 0 := by
  by_cases hk : k0 = k
  · rw [if_pos hk]
    apply List.countP_eq_length.mpr
    intro it hit
    rw [hall it hit, hk]
    simp
  · rw [if_neg hk]
    apply List.countP_eq_zero.mpr
    intro it hit
    rw [hall it hit]
    simp [hk]

theorem prItems_kind (cid : Nat) (fullName : String) (fb : List String)
    (limit : Nat) (pulls : List PRData) :
    ∀ it ∈ prItems cid fullName fb limit pulls, it.kind = .pull := by
  intro it hit
  obtain ⟨pr, _, rfl⟩ := List.mem_map.mp hit
  rfl

theorem releaseItems_kind (cid : Nat) (fullName : String) (limit : Nat)
    (releases : List ReleaseData) :
    ∀ it ∈ releaseItems cid fullName limit releases, it.kind = .release := by
  intro it hit
  obtain ⟨r, _, rfl⟩ := List.mem_map.mp hit
  rfl

theorem workflowItems_kind (cid : Nat) (fullName : String) (fb : List String)
    (limit : Nat) (repo : RepoData) :
    ∀ it ∈ workflowItems cid fullName fb limit repo, it.kind = .workflow := by
  intro it hit
  unfold workflowItems at hit
  split at hit
  · exact absurd hit (List.not_mem_nil it)
  · obtain ⟨run, _, rfl⟩ := List.mem_map.mp hit
    rfl

theorem commitItems_kind (cid : Nat) (fullName : String)
    (branches : List String) (limit : Nat) (repo : RepoData) :
    ∀ it ∈ commitItems cid fullName branches limit repo, it.kind = .commit := by
  intro it hit
  obtain ⟨bn, _, b, _, _, c, _, rfl⟩ :=
    commitItems_mem cid fullName branches limit repo it hit
  rfl

theorem registryItems_kind (cid : Nat) (world : World) (fullName : String) :
    ∀ it ∈ registryItems cid world fullName, it.kind = .registry := by
  intro it hit
  obtain ⟨pkg, _, rfl⟩ := List.mem_map.mp hit
  rfl

theorem targetItems_countP (k : EventKind) (cid : Nat) (world : World)
    (branches : List String) (limit : Nat) (repo : RepoData) :
    (targetItems cid world branches limit repo).countP
        (fun it => decide (it.kind = k))
      = (if EventKind.pull = k
          then (prItems cid repo.fullName branches limit repo.pulls).length else 0)
        + (if EventKind.release = k
            then (releaseItems cid repo.fullName limit repo.releases).length else 0)
        + (if EventKind.workflow = k
            then (workflowItems cid repo.fullName branches limit repo).length else 0)
        + (if EventKind.commit = k
            then (commitItems cid repo.fullName branches limit repo).length else 0)
        + (if EventKind.registry = k
            then (registryItems cid world repo.fullName).length else 0) := by
  unfold targetItems
  rw [List.countP_append, List.countP_append, List.countP_append,
    List.countP_append]
  rw [countP_kind_const k .pull _ (prItems_kind cid repo.fullName branches limit repo.pulls),
    countP_kind_const k .release _ (releaseItems_kind cid repo.fullName limit repo.releases),
    countP_kind_const k .workflow _ (workflowItems_kind cid repo.fullName branches limit repo),
    countP_kind_const k .commit _ (commitItems_kind cid repo.fullName branches limit repo),
    countP_kind_const k .registry _ (registryItems_kind cid world repo.fullName)]

theorem prItems_length_le (cid : Nat) (fullName : String) (fb : List String)
    (limit : Nat) (pulls : List PRData) :
    (prItems cid fullName fb limit pulls).length ≤ limit := by
  rw [prItems, List.length_map]
  exact List.length_take_le _ _

theorem releaseItems_length_le (cid : Nat) (fullName : String) (limit : Nat)
    (releases : List ReleaseData) :
    (releaseItems cid fullName limit releases).length ≤ limit := by
  rw [releaseItems, List.length_map]
  exact List.length_take_le _ _

theorem workflowItems_length_le (cid : Nat) (fullName : String)
    (fb : List String) (limit : Nat) (repo : RepoData) :
    (workflowItems cid fullName fb limit repo).length ≤ limit := by
  unfold workflowItems
  split
  · simp
  · rw [List.length_map]
    exact List.length_take_le _ _

theorem commitItems_length_le (cid : Nat) (fullName : String)
    (branches : List String) (limit : Nat) (repo : RepoData) :
    (commitItems cid fullName branches limit repo).length
      ≤ branches.length * limit := by
  unfold commitItems
  rw [List.length_flatten, List.map_map]
  have hbound : ∀ x ∈ branches.map (List.length ∘ fun bn =>
      match repo.branches.find? (fun b => decide (b.name = bn)) with
      | none => []
      | some b => (b.commits.take limit).map (commitItem cid fullName bn)),
      x ≤ limit := by
    intro x hx
    obtain ⟨bn, _, rfl⟩ := List.mem_map.mp hx
    simp only [Function.comp]
    rcases hfind : repo.branches.find? (fun b => decide (b.name = bn)) with _ | b
    · rw [hfind]
      simp
    · rw [hfind]
      simp only [List.length_map, List.length_take]
      exact Nat.min_le_left _ _
  have := List.sum_le_card_nsmul _ limit hbound
  rw [List.length_map] at this
  simpa [smul_eq_mul] using this

theorem fetchRegistryPackages_length_le (world : World) (orgName : String)
    (limit : Nat) :
    (fetchRegistryPackages world orgName limit).length ≤ 10 * limit := by
  unfold fetchRegistryPackages
  rcases hfind : world.orgs.find? (fun p => decide (p.1 = orgName)) with _ | p
  · rw [hfind]
    simp
  · rw [hfind]
    dsimp only
    split
    · rw [List.length_flatten, List.map_map]
      have hbound : ∀ x ∈ (p.2.packages.take 10).map
          (List.length ∘ pkgVersionInfos orgName limit), x ≤ limit := by
        intro x hx
        obtain ⟨pkg, _, rfl⟩ := List.mem_map.mp hx
        simp only [Function.comp]
        unfold pkgVersionInfos
        split
        · exact le_trans (List.length_filterMap_le _ _) (List.length_take_le _ _)
        · simp
      have := List.sum_le_card_nsmul _ limit hbound
      rw [List.length_map] at this
      have hlen : (p.2.packages.take 10).length ≤ 10 := List.length_take_le _ _
      calc _ ≤ (p.2.packages.take 10).length * limit := by
              simpa [smul_eq_mul] using this
        _ ≤ 10 * limit := Nat.mul_le_mul_right _ hlen
    · simp

theorem registryItems_length_le (cid : Nat) (world : World) (fullName : String) :
    (registryItems cid world fullName).length ≤ 200 := by
  rw [registryItems, List.length_map]
  exact le_trans (fetchRegistryPackages_length_le world (beforeSlash fullName) 20)
    (by omega)

theorem sum_map_le_card_mul {α : Type} (l : List α) (f : α → Nat) (n : Nat)
    (h : ∀ r ∈ l, f r ≤ n) : (l.map f).sum ≤ l.length * n := by
  have hb : ∀ x ∈ l.map f, x ≤ n := by
    intro x hx
    obtain ⟨r, hr, rfl⟩ := List.mem_map.mp hx
    exact h r hr
  have := List.sum_le_card_nsmul _ n hb
  rw [List.length_map] at this
  simpa [smul_eq_mul] using this

theorem repoKindCount_pull_le (cid : Nat) (world : World)
    (branches : List String) (limit : Nat) (repo : RepoData) :
    repoKindCount .pull cid world branches limit repo ≤ limit := by
  unfold repoKindCount
  split
  · exact Nat.zero_le _
  · exact le_trans (List.countP_le_length _)
      (prItems_length_le cid repo.fullName branches limit repo.pulls)
  · rw [targetItems_countP]
    simp only [if_pos rfl, reduceCtorEq, if_false, Nat.add_zero]
    exact prItems_length_le cid repo.fullName branches limit repo.pulls

theorem repoKindCount_release_le (cid : Nat) (world : World)
    (branches : List String) (limit : Nat) (repo : RepoData) :
    repoKindCount .release cid world branches limit repo ≤ limit := by
  unfold repoKindCount
  split
  · exact Nat.zero_le _
  · rw [countP_kind_const .release .pull _
      (prItems_kind cid repo.fullName branches limit repo.pulls)]
    simp
  · rw [targetItems_countP]
    simp only [if_pos rfl, reduceCtorEq, if_false, Nat.add_zero, Nat.zero_add]
    exact releaseItems_length_le cid repo.fullName limit repo.releases

theorem repoKindCount_workflow_le (cid : Nat) (world : World)
    (branches : List String) (limit : Nat) (repo : RepoData) :
    repoKindCount .workflow cid world branches limit repo ≤ limit := by
  unfold repoKindCount
  split
  · exact Nat.zero_le _
  · rw [countP_kind_const .workflow .pull _
      (prItems_kind cid repo.fullName branches limit repo.pulls)]
    simp
  · rw [targetItems_countP]
    simp only [if_pos rfl, reduceCtorEq, if_false, Nat.add_zero, Nat.zero_add]
    exact workflowItems_length_le cid repo.fullName branches limit repo

theorem repoKindCount_commit_le (cid : Nat) (world : World)
    (branches : List String) (limit : Nat) (repo : RepoData) :
    repoKindCount .commit cid world branches limit repo
      ≤ branches.length * limit := by
  unfold repoKindCount
  split
  · exact Nat.zero_le _
  · rw [countP_kind_const .commit .pull _
      (prItems_kind cid repo.fullName branches limit repo.pulls)]
    simp
  · rw [targetItems_countP]
    simp only [if_pos rfl, reduceCtorEq, if_false, Nat.add_zero, Nat.zero_add]
    exact commitItems_length_le cid repo.fullName branches limit repo

theorem repoKindCount_registry_le (cid : Nat) (world : World)
    (branches : List String) (limit : Nat) (repo : RepoData) :
    repoKindCount .registry cid world branches limit repo ≤ 200 := by
  unfold repoKindCount
  split
  · exact Nat.zero_le _
  · rw [countP_kind_const .registry .pull _
      (prItems_kind cid repo.fullName branches limit repo.pulls)]
    simp
  · rw [targetItems_countP]
    simp only [if_pos rfl, reduceCtorEq, if_false, Nat.add_zero, Nat.zero_add]
    exact registryItems_length_le cid world repo.fullName

theorem repoKindCount_commit_nil (cid : Nat) (world : World) (limit : Nat)
    (repo : RepoData) :
    repoKindCount .commit cid world [] limit repo = 0 := by
  have h := repoKindCount_commit_le cid world [] limit repo
  simpa using h

/-- The branch a commit-kind payload records. -/
def commitBranchOf : EventDetails → Option String
  | .commit _ bn _ _ _ _ => some bn
  | _ => none

theorem targetItems_commit_branch (cid : Nat) (world : World)
    (branches : List String) (limit : Nat) (repo : RepoData) (it : Item)
    (hit : it ∈ targetItems cid world branches limit repo)
    (bn : String) (hdet : commitBranchOf it.ev.details = some bn) :
    bn ∈ branches := by
  unfold targetItems at hit
  rcases List.mem_append.mp hit with h | h
  rotate_left
  · obtain ⟨pkg, _, rfl⟩ := List.mem_map.mp h
    exact absurd hdet (by simp [registryItem, buildRegistryEvent, commitBranchOf])
  rcases List.mem_append.mp h with h | h
  rotate_left
  · obtain ⟨bn2, hbn2, b, _, _, c, _, rfl⟩ :=
      commitItems_mem cid repo.fullName branches limit repo it h
    have : commitBranchOf (commitItem cid repo.fullName bn2 c).ev.details
        = some bn2 := rfl
    rw [this] at hdet
    injection hdet with hh
    exact hh ▸ hbn2
  rcases List.mem_append.mp h with h | h
  rotate_left
  · have hk := workflowItems_kind cid repo.fullName branches limit repo it h
    unfold workflowItems at h
    split at h
    · exact absurd h (List.not_mem_nil it)
    · obtain ⟨run, _, rfl⟩ := List.mem_map.mp h
      exact absurd hdet (by simp [workflowItem, buildWorkflowEvent, commitBranchOf])
  rcases List.mem_append.mp h with h | h
  · obtain ⟨pr, _, rfl⟩ := List.mem_map.mp h
    exact absurd hdet (by simp [prItem, buildPREvent, commitBranchOf])
  · obtain ⟨r, _, rfl⟩ := List.mem_map.mp h
    exact absurd hdet (by simp [releaseItem, buildReleaseEvent, commitBranchOf])

/-- When the token is present and the connectivity test passes, `sync_github`
runs `fetch_with_session` with its default limit of 50 over the parsed
repository and branch lists. -/
theorem sync_github_run (world : World) (store : List StoredEvent)
    (cfg : Config) (cid : Nat) (htoken : cfg.token ≠ "")
    (hauth : world.authOk = true) :
    sync_github world store cfg cid
      = { ret := SyncRet.ok
            (fetchWithSession world store cid (parseListConfig cfg.repos)
              (parseListConfig cfg.branches) 50).fetched
            (fetchWithSession world store cid (parseListConfig cfg.repos)
              (parseListConfig cfg.branches) 50).stored
          store := (fetchWithSession world store cid (parseListConfig cfg.repos)
            (parseListConfig cfg.branches) 50).committed
          netCalls := 1 + fetchNetCalls world (parseListConfig cfg.repos)
            (parseListConfig cfg.branches) } := by
  unfold sync_github
  rw [if_neg htoken]
  have ht : testConnection world cfg.token = true := by
    unfold testConnection
    rw [if_neg htoken]
    exact hauth
  rw [if_pos ht]

/-- When the token is present and the connectivity test fails, `sync_github`
aborts after the single test call, leaving the store untouched. -/
theorem sync_github_testfail (world : World) (store : List StoredEvent)
    (cfg : Config) (cid : Nat) (htoken : cfg.token ≠ "")
    (hauth : world.authOk = false) :
    sync_github world store cfg cid
      = { ret := SyncRet.err "Failed to connect to GitHub"
          store := store
          netCalls := 1 } := by
  unfold sync_github
  rw [if_neg htoken]
  have ht : testConnection world cfg.token = false := by
    unfold testConnection
    rw [if_neg htoken]
    exact hauth
  rw [ht]
  simp

/-- C7: for every sync run on a connection whose stored record is missing or
whose enabled flag is false, `poll_connection` returns status `skipped` with
the reason "disabled or not found" and performs zero network calls and zero
store writes (the store and the connections table are returned unchanged). -/
theorem C7_disabled_skip (world : World) (connections : List ConnectionRec)
    (store : List StoredEvent) (now connectionId : Nat)
    (h : connections.find? (fun c => decide (c.id = connectionId ∧ c.enabled))
      = none) :
    poll_connection world connections store now connectionId
      = { status := PollStatus.skipped
          reason := some "disabled or not found"
          result := none
          store := store
          connections := connections
          netCalls := 0 } := by
  unfold poll_connection
  rw [h]

def c7cfg : Config :=
  { token := "t", repos := "", branches := "", isEnterprise := false,
    baseUrl := "" }

def c7conn : ConnectionRec :=
  { id := 1, name := "conn", type := "github", config := c7cfg,
    enabled := false, lastSync := none }

def c7world : World :=
  { authOk := true, repos := [], userRepos := [], orgs := [] }

/-- Witness for C7: polling a disabled connection is skipped with zero calls
and zero writes. -/
theorem C7_witness :
    ([c7conn].find? (fun c => decide (c.id = 1 ∧ c.enabled)) = none) ∧
    poll_connection c7world [c7conn] [] 9 1
      = { status := PollStatus.skipped
          reason := some "disabled or not found"
          result := none
          store := []
          connections := [c7conn]
          netCalls := 0 } :=
  ⟨by decide, C7_disabled_skip c7world [c7conn] [] 9 1 (by decide)⟩

/-- C4: every row a sync run adds to the store carries an eventId of the
spec's kind-specific format: "pr-<repoFullName>-<prNumber>",
"release-<repoFullName>-<releaseId>", "workflow-<repoFullName>-<runId>",
"commit-<repoFullName>-<sha>", "registry-<imageName>-<versionId>"
(`specEventId` spells these out per kind).  Determinism across runs holds
because the derivation is a pure function of the upstream item: the same
item always yields the same eventId string. -/
theorem C4_eventId_format (world : World) (store : List StoredEvent)
    (cid : Nat) (repos branches : List String) (limit : Nat) :
    ∃ newRows,
      (fetchWithSession world store cid repos branches limit).committed
        = store ++ newRows ∧
      ∀ e ∈ newRows, e.eventId = specEventId e := by
  obtain ⟨t, ht, ht2⟩ := foldl_processTarget_committed_origin cid world branches
    limit (reposToFetch world repos) (initState store) rfl
  refine ⟨t, ht, ?_⟩
  intro e he
  obtain ⟨repo, _, it, hit, _, hev⟩ := ht2 e he
  have hwf := targetItems_wf cid world branches limit repo it hit
  rw [hev]
  exact hwf.2.2

/-- C10: with an empty or absent `branches` configuration value (it parses to
the empty allowlist), a sync run through the arguments `sync_github` passes
fetches zero commit-kind events and stores zero commit-kind rows; the commit
section runs only over the names of the allowlist, so every commit-kind row a
run could add records an allowlisted branch — impossible for the empty
allowlist. -/
theorem C10_commit_allowlist (world : World) (store : List StoredEvent)
    (cid : Nat) (cfg : Config)
    (hb : parseListConfig cfg.branches = []) :
    (fetchWithSession world store cid (parseListConfig cfg.repos)
        (parseListConfig cfg.branches) 50).cFetched = 0 ∧
    ∃ newRows,
      (fetchWithSession world store cid (parseListConfig cfg.repos)
          (parseListConfig cfg.branches) 50).committed = store ++ newRows ∧
      ∀ e ∈ newRows, commitBranchOf e.details = none := by
  constructor
  · unfold fetchWithSession
    rw [hb, foldl_processTarget_cFetched]
    have hz : ∀ x ∈ (reposToFetch world (parseListConfig cfg.repos)).map
        (repoKindCount .commit cid world [] 50), x = 0 := by
      intro x hx
      obtain ⟨r, _, rfl⟩ := List.mem_map.mp hx
      exact repoKindCount_commit_nil cid world 50 r
    rw [List.sum_eq_zero hz]
    rfl
  · obtain ⟨t, ht, ht2⟩ := foldl_processTarget_committed_origin cid world
      (parseListConfig cfg.branches) 50
      (reposToFetch world (parseListConfig cfg.repos)) (initState store) rfl
    refine ⟨t, ht, ?_⟩
    intro e he
    obtain ⟨repo, _, it, hit, _, hev⟩ := ht2 e he
    rcases hcb : commitBranchOf e.details with _ | bn
    · rfl
    · have hbn : bn ∈ parseListConfig cfg.branches := by
        apply targetItems_commit_branch cid world (parseListConfig cfg.branches)
          50 repo it hit bn
        rw [← hev, hcb]
      rw [hb] at hbn
      exact absurd hbn (List.not_mem_nil bn)

def cfg10 : Config :=
  { token := "t", repos := "o/r", branches := "", isEnterprise := false,
    baseUrl := "" }

def commit10 : CommitData :=
  { sha := "s1", message := "m", authorName := none, filesFetch := some [],
    stats := none }

def branch10 : BranchData :=
  { name := "main", commits := [commit10] }

def repo10 : RepoData :=
  { fullName := "o/r", pulls := [], releases := [], runsFetchFail := false,
    runs := [], branches := [branch10], failAt := none }

def w10 : World :=
  { authOk := true, repos := [("o/r", repo10)], userRepos := [], orgs := [] }

/-- Witness for C10: a repository that has commits on "main" upstream yields
zero commit-kind fetches when the branches configuration is empty. -/
theorem C10_witness :
    parseListConfig cfg10.branches = [] ∧
    ((fetchWithSession w10 [] 1 (parseListConfig cfg10.repos)
        (parseListConfig cfg10.branches) 50).cFetched = 0 ∧
      ∃ newRows,
        (fetchWithSession w10 [] 1 (parseListConfig cfg10.repos)
            (parseListConfig cfg10.branches) 50).committed = [] ++ newRows ∧
        ∀ e ∈ newRows, commitBranchOf e.details = none) :=
  ⟨by decide, C10_commit_allowlist w10 [] 1 cfg10 (by decide)⟩

theorem processItem_skip_eq (cid : Nat) (st : SyncState) (it : Item)
    (h : it.skip = true) :
    processItem cid st it = bumpFetched st it.kind := by
  unfold processItem
  dsimp only
  rw [if_pos h]

def commit6 : CommitData :=
  { sha := "d1", message := "dev work", authorName := none,
    filesFetch := some [], stats := none }

def branch6 : BranchData :=
  { name := "dev", commits := [commit6] }

def repo6 : RepoData :=
  { fullName := "o/r", pulls := [], releases := [], runsFetchFail := false,
    runs := [], branches := [branch6], failAt := none }

def w6 : World :=
  { authOk := true, repos := [("o/r", repo6)], userRepos := [], orgs := [] }

/-- Counterexample for C6: with `branches=["main"]`, a commit that exists
upstream only on the branch "dev" is never stored (correct) but is also never
counted as fetched, contradicting the claim that any commit on a branch other
than "main" "is never stored yet is counted as fetched": the whole run fetches
zero items and stores zero rows, because commits are enumerated from
allowlisted branches only. -/
theorem C6_counterexample :
    (fetchWithSession w6 [] 1 ["o/r"] ["main"] 50).cFetched = 0 ∧
    (fetchWithSession w6 [] 1 ["o/r"] ["main"] 50).fetched = 0 ∧
    (fetchWithSession w6 [] 1 ["o/r"] ["main"] 50).committed = [] := by
  decide

/-- C6 (amended): with a non-empty branch allowlist, a pull request whose base
branch is outside the allowlist and a workflow run whose head branch is
outside the allowlist are each counted as fetched but change nothing else —
no staging, no store write, no stored-counter increment; commits, by
contrast, are enumerated only from allowlisted branches (every commit item
originates from a branch named in the allowlist), so an out-of-allowlist
commit is neither stored nor counted as fetched. -/
theorem C6_branch_filter (cid : Nat) (st : SyncState) (fullName : String)
    (branches : List String) (pr : PRData) (run : RunData)
    (hb : branches ≠ []) (hpr : pr.baseRef ∉ branches)
    (hrun : run.headBranch ∉ branches) :
    processItem cid st (prItem cid fullName branches pr)
        = bumpFetched st .pull ∧
    processItem cid st (workflowItem cid fullName branches run)
        = bumpFetched st .workflow ∧
    (bumpFetched st .pull).prFetched = st.prFetched + 1 ∧
    (bumpFetched st .workflow).wfFetched = st.wfFetched + 1 ∧
    (bumpFetched st .pull).stored = st.stored ∧
    (bumpFetched st .workflow).stored = st.stored ∧
    (bumpFetched st .pull).committed = st.committed ∧
    (bumpFetched st .pull).staged = st.staged ∧
    (∀ limit repo it, it ∈ commitItems cid fullName branches limit repo →
      ∃ bn ∈ branches, ∃ b ∈ repo.branches, b.name = bn ∧
        ∃ c ∈ b.commits.take limit, it = commitItem cid fullName bn c) := by
  have hskip1 : (prItem cid fullName branches pr).skip = true := by
    simp [prItem, hb, hpr]
  have hskip2 : (workflowItem cid fullName branches run).skip = true := by
    simp [workflowItem, hb, hrun]
  refine ⟨?_, ?_, by simp [bumpFetched], by simp [bumpFetched], by simp,
    by simp, by simp, by simp, ?_⟩
  · exact processItem_skip_eq cid st _ hskip1
  · exact processItem_skip_eq cid st _ hskip2
  · intro limit repo it hit
    exact commitItems_mem cid fullName branches limit repo it hit

def pr6 : PRData :=
  { number := 3, title := "t", body := none, userLogin := "u",
    baseRef := "dev", headRef := "f", state := "open", labels := [],
    filesFetch := some [], reviewsFetch := some [] }

def run6 : RunData :=
  { runId := 4, name := "ci", headBranch := "dev", headSha := "abcdef01",
    conclusion := some "success", status := "completed", actorLogin := none,
    jobsFetch := some [] }

/-- Witness for C6 (amended) at a concrete filtered pull request and workflow
run. -/
theorem C6_witness :
    (["main"] ≠ ([] : List String) ∧ "dev" ∉ ["main"]) ∧
    (processItem 1 (initState []) (prItem 1 "o/r" ["main"] pr6)
        = bumpFetched (initState []) .pull ∧
      processItem 1 (initState []) (workflowItem 1 "o/r" ["main"] run6)
        = bumpFetched (initState []) .workflow ∧
      (bumpFetched (initState []) .pull).prFetched
        = (initState ([] : List StoredEvent)).prFetched + 1 ∧
      (bumpFetched (initState []) .workflow).wfFetched
        = (initState ([] : List StoredEvent)).wfFetched + 1 ∧
      (bumpFetched (initState []) .pull).stored
        = (initState ([] : List StoredEvent)).stored ∧
      (bumpFetched (initState []) .workflow).stored
        = (initState ([] : List StoredEvent)).stored ∧
      (bumpFetched (initState []) .pull).committed
        = (initState ([] : List StoredEvent)).committed ∧
      (bumpFetched (initState []) .pull).staged
        = (initState ([] : List StoredEvent)).staged ∧
      (∀ limit repo it, it ∈ commitItems 1 "o/r" ["main"] limit repo →
        ∃ bn ∈ ["main"], ∃ b ∈ repo.branches, b.name = bn ∧
          ∃ c ∈ b.commits.take limit, it = commitItem 1 "o/r" bn c)) :=
  ⟨⟨by decide, by decide⟩,
    C6_branch_filter 1 (initState []) "o/r" ["main"] pr6 run6
      (by decide) (by decide) (by decide)⟩

/-- C9: an item whose optional secondary detail fetch raises is still
normalized and stored with the corresponding field defaulted to empty: a pull
request whose file-list fetch and review-list fetch raise gets an empty file
list, an empty reviewer list and zero approval/changes-requested counts; a
workflow run whose job fetch raises gets an empty failed-jobs list; a commit
whose file read raises gets an empty file list.  Such a pull-request item is
still staged and counted as stored when its key is absent, and the failure
never escalates: the defaults are produced inside the normalization, which
cannot abort a run in the embedding. -/
theorem C9_enrichment_defaults (cid : Nat) (st : SyncState)
    (fullName : String) (fb : List String) (pr : PRData) (run : RunData)
    (bn : String) (c : CommitData)
    (hprf : pr.filesFetch = none) (hprr : pr.reviewsFetch = none)
    (hwj : run.jobsFetch = none) (hcf : c.filesFetch = none)
    (hskip : (prItem cid fullName fb pr).skip = false)
    (hlook : lookupKey st.events (some cid)
      (prItem cid fullName fb pr).eventId = none) :
    (buildPREvent (some cid) fullName pr
        ("pr-" ++ fullName ++ "-" ++ toString pr.number)).details
      = EventDetails.pull pr.number [] [] 0 0 pr.baseRef pr.headRef ∧
    (buildWorkflowEvent (some cid) fullName run
        ("workflow-" ++ fullName ++ "-" ++ toString run.runId)).details
      = EventDetails.workflow run.runId [] run.headBranch run.conclusion ∧
    (buildCommitEvent (some cid) fullName bn c
        ("commit-" ++ fullName ++ "-" ++ c.sha)).details
      = EventDetails.commit [] bn c.sha
          (c.stats.getD { additions := 0, deletions := 0, total := 0 }).additions
          (c.stats.getD { additions := 0, deletions := 0, total := 0 }).deletions
          (c.stats.getD { additions := 0, deletions := 0, total := 0 }).total ∧
    (processItem cid st (prItem cid fullName fb pr)).staged
      = st.staged ++ [(prItem cid fullName fb pr).ev] ∧
    (processItem cid st (prItem cid fullName fb pr)).stored
      = st.stored + 1 := by
  refine ⟨?_, ?_, ?_, ?_, ?_⟩
  · unfold buildPREvent
    rw [hprf, hprr]
  · unfold buildWorkflowEvent
    rw [hwj]
    rcases hif : isFailConclusion run.conclusion with _ | _ <;> simp [hif]
  · unfold buildCommitEvent
    rw [hcf]
  · rw [processItem_staged_eq, hskip]
    simp only [Bool.false_eq_true, if_false]
    rw [hlook]
    simp
  · rw [processItem_stored_eq, hskip]
    simp only [Bool.false_eq_true, if_false]
    rw [hlook]
    simp

def pr9 : PRData :=
  { number := 5, title := "t", body := none, userLogin := "u",
    baseRef := "main", headRef := "f", state := "open", labels := [],
    filesFetch := none, reviewsFetch := none }

def run9 : RunData :=
  { runId := 6, name := "ci", headBranch := "main", headSha := "abcdef02",
    conclusion := some "failure", status := "completed", actorLogin := none,
    jobsFetch := none }

def commit9 : CommitData :=
  { sha := "c9", message := "m", authorName := none, filesFetch := none,
    stats := none }

/-- Witness for C9 at concrete items whose enrichment fetches all raise. -/
theorem C9_witness :
    (pr9.filesFetch = none ∧ pr9.reviewsFetch = none ∧
      run9.jobsFetch = none ∧ commit9.filesFetch = none ∧
      (prItem 1 "o/r" [] pr9).skip = false ∧
      lookupKey (initState ([] : List StoredEvent)).events (some 1)
        (prItem 1 "o/r" [] pr9).eventId = none) ∧
    ((buildPREvent (some 1) "o/r" pr9
        ("pr-" ++ "o/r" ++ "-" ++ toString pr9.number)).details
      = EventDetails.pull pr9.number [] [] 0 0 pr9.baseRef pr9.headRef ∧
    (buildWorkflowEvent (some 1) "o/r" run9
        ("workflow-" ++ "o/r" ++ "-" ++ toString run9.runId)).details
      = EventDetails.workflow run9.runId [] run9.headBranch run9.conclusion ∧
    (buildCommitEvent (some 1) "o/r" "main" commit9
        ("commit-" ++ "o/r" ++ "-" ++ commit9.sha)).details
      = EventDetails.commit [] "main" commit9.sha
          (commit9.stats.getD { additions := 0, deletions := 0, total := 0 }).additions
          (commit9.stats.getD { additions := 0, deletions := 0, total := 0 }).deletions
          (commit9.stats.getD { additions := 0, deletions := 0, total := 0 }).total ∧
    (processItem 1 (initState []) (prItem 1 "o/r" [] pr9)).staged
      = (initState ([] : List StoredEvent)).staged ++ [(prItem 1 "o/r" [] pr9).ev] ∧
    (processItem 1 (initState []) (prItem 1 "o/r" [] pr9)).stored
      = (initState ([] : List StoredEvent)).stored + 1) :=
  ⟨⟨rfl, rfl, rfl, rfl, by decide, by decide⟩,
    C9_enrichment_defaults 1 (initState []) "o/r" [] pr9 run9 "main" commit9
      rfl rfl rfl rfl (by decide) (by decide)⟩

/-- C5: a `GithubException` while enumerating or reading one repository target
is caught and only that target is skipped.  For any split of the target list
around a failing target: (1) the run is exactly "process the earlier targets,
roll the failing one back, continue with the rest"; (2) the failing target
adds nothing to the committed store and its staged rows are dropped; (3) the
rows committed for the earlier targets are an initial segment of the final
store — preserved because the commit happens once per target (line 831), not
once per run. -/
theorem C5_target_isolation (cid : Nat) (world : World)
    (branches : List String) (limit : Nat) (pre post : List RepoData)
    (repo : RepoData) (st0 : SyncState) (hst : st0.staged = [])
    (hfail : repo.failAt.isSome) :
    ((pre ++ repo :: post).foldl (processTarget cid world branches limit) st0)
        = post.foldl (processTarget cid world branches limit)
            (processTarget cid world branches limit
              (pre.foldl (processTarget cid world branches limit) st0) repo) ∧
    (processTarget cid world branches limit
        (pre.foldl (processTarget cid world branches limit) st0) repo).committed
      = (pre.foldl (processTarget cid world branches limit) st0).committed ∧
    (processTarget cid world branches limit
        (pre.foldl (processTarget cid world branches limit) st0) repo).staged
      = [] ∧
    ∃ t, ((pre ++ repo :: post).foldl
          (processTarget cid world branches limit) st0).committed
        = (pre.foldl (processTarget cid world branches limit) st0).committed
          ++ t := by
  obtain ⟨tf, hf⟩ := Option.isSome_iff_exists.mp hfail
  have h1 : ((pre ++ repo :: post).foldl
        (processTarget cid world branches limit) st0)
      = post.foldl (processTarget cid world branches limit)
          (processTarget cid world branches limit
            (pre.foldl (processTarget cid world branches limit) st0) repo) := by
    rw [List.foldl_append, List.foldl_cons]
  have h2 : (processTarget cid world branches limit
        (pre.foldl (processTarget cid world branches limit) st0) repo).committed
      = (pre.foldl (processTarget cid world branches limit) st0).committed := by
    unfold processTarget
    rw [hf]
    cases tf
    · rfl
    · rw [rollback_committed, foldl_processItem_committed]
  refine ⟨h1, h2, processTarget_staged cid world branches limit _ repo, ?_⟩
  obtain ⟨t, ht, _⟩ := foldl_processTarget_committed_origin cid world branches
    limit post
    (processTarget cid world branches limit
      (pre.foldl (processTarget cid world branches limit) st0) repo)
    (processTarget_staged cid world branches limit _ repo)
  exact ⟨t, by rw [h1, ht, h2]⟩

def w5 : World :=
  { authOk := true, repos := [], userRepos := [], orgs := [] }

def pr5 : PRData :=
  { number := 8, title := "keep", body := none, userLogin := "u",
    baseRef := "main", headRef := "f", state := "open", labels := [],
    filesFetch := some [], reviewsFetch := some [] }

def repo5a : RepoData :=
  { fullName := "o/a", pulls := [pr5], releases := [], runsFetchFail := false,
    runs := [], branches := [], failAt := none }

def repo5b : RepoData :=
  { fullName := "o/b", pulls := [pr5], releases := [],
    runsFetchFail := false, runs := [], branches := [],
    failAt := some TargetFail.releasesEnum }

def repo5c : RepoData :=
  { fullName := "o/c", pulls := [pr5], releases := [], runsFetchFail := false,
    runs := [], branches := [], failAt := none }

/-- Witness for C5: a failing middle target between two healthy targets. -/
theorem C5_witness :
    ((initState ([] : List StoredEvent)).staged = [] ∧
      repo5b.failAt.isSome = true) ∧
    ((([repo5a] ++ repo5b :: [repo5c]).foldl
          (processTarget 1 w5 [] 50) (initState []))
        = [repo5c].foldl (processTarget 1 w5 [] 50)
            (processTarget 1 w5 [] 50
              ([repo5a].foldl (processTarget 1 w5 [] 50) (initState [])) repo5b) ∧
      (processTarget 1 w5 [] 50
          ([repo5a].foldl (processTarget 1 w5 [] 50) (initState [])) repo5b).committed
        = ([repo5a].foldl (processTarget 1 w5 [] 50) (initState [])).committed ∧
      (processTarget 1 w5 [] 50
          ([repo5a].foldl (processTarget 1 w5 [] 50) (initState [])) repo5b).staged
        = [] ∧
      ∃ t, (([repo5a] ++ repo5b :: [repo5c]).foldl
            (processTarget 1 w5 [] 50) (initState [])).committed
          = ([repo5a].foldl (processTarget 1 w5 [] 50) (initState [])).committed
            ++ t) :=
  ⟨⟨rfl, rfl⟩,
    C5_target_isolation 1 w5 [] 50 [repo5a] [repo5c] repo5b (initState [])
      rfl rfl⟩

def c8version : VersionData :=
  { versionId := 0, tags := ["t"], digest := "", authorLogin := none }

def c8pkg (n : String) : PackageData :=
  { name := n, versionsOk := true, versions := List.replicate 20 c8version }

def c8org : OrgData :=
  { packagesOk := true, packages := [c8pkg "a", c8pkg "b", c8pkg "c"] }

def repo8 : RepoData :=
  { fullName := "o/r", pulls := [], releases := [], runsFetchFail := false,
    runs := [], branches := [], failAt := none }

def w8 : World :=
  { authOk := true, repos := [("o/r", repo8)], userRepos := [],
    orgs := [("o", c8org)] }

/-- Counterexample for C8: with the default sync limit of 50, one target whose
organization exposes 3 container packages with 20 tagged versions each
processes 60 registry-kind items in a single sync cycle — the registry fetch
uses its own per-package default of 20 versions over up to 10 packages and is
not bounded by the 50-item cap, so "at most 50 items of that kind" is false
for container image versions. -/
theorem C8_counterexample :
    (fetchWithSession w8 [] 1 ["o/r"] [] 50).regFetched = 60 ∧
    ¬ (fetchWithSession w8 [] 1 ["o/r"] [] 50).regFetched ≤ 50 := by
  decide

/-- C8 (amended): per sync run, pull requests, releases and workflow runs are
each capped at `limit` (default 50) items per target; commits are capped at
`limit` per allowlisted branch per target; container registry versions are
fetched with a separate per-package default of 20 versions over at most 10
packages, so up to 200 registry items per target.  Each kind is enumerated
independently, and the per-kind fetched counters obey these bounds. -/
theorem C8_kind_caps (world : World) (store : List StoredEvent) (cid : Nat)
    (repos branches : List String) (limit : Nat) :
    (fetchWithSession world store cid repos branches limit).prFetched
        ≤ (reposToFetch world repos).length * limit ∧
    (fetchWithSession world store cid repos branches limit).relFetched
        ≤ (reposToFetch world repos).length * limit ∧
    (fetchWithSession world store cid repos branches limit).wfFetched
        ≤ (reposToFetch world repos).length * limit ∧
    (fetchWithSession world store cid repos branches limit).cFetched
        ≤ (reposToFetch world repos).length * (branches.length * limit) ∧
    (fetchWithSession world store cid repos branches limit).regFetched
        ≤ (reposToFetch world repos).length * 200 := by
  unfold fetchWithSession
  rw [foldl_processTarget_prFetched, foldl_processTarget_relFetched,
    foldl_processTarget_wfFetched, foldl_processTarget_cFetched,
    foldl_processTarget_regFetched]
  refine ⟨?_, ?_, ?_, ?_, ?_⟩
  · simpa [initState] using sum_map_le_card_mul (reposToFetch world repos)
      (repoKindCount .pull cid world branches limit) limit
      (fun r _ => repoKindCount_pull_le cid world branches limit r)
  · simpa [initState] using sum_map_le_card_mul (reposToFetch world repos)
      (repoKindCount .release cid world branches limit) limit
      (fun r _ => repoKindCount_release_le cid world branches limit r)
  · simpa [initState] using sum_map_le_card_mul (reposToFetch world repos)
      (repoKindCount .workflow cid world branches limit) limit
      (fun r _ => repoKindCount_workflow_le cid world branches limit r)
  · simpa [initState] using sum_map_le_card_mul (reposToFetch world repos)
      (repoKindCount .commit cid world branches limit) (branches.length * limit)
      (fun r _ => repoKindCount_commit_le cid world branches limit r)
  · simpa [initState] using sum_map_le_card_mul (reposToFetch world repos)
      (repoKindCount .registry cid world branches limit) 200
      (fun r _ => repoKindCount_registry_le cid world branches limit r)

def c3cfg : Config :=
  { token := "t", repos := "", branches := "", isEnterprise := false,
    baseUrl := "" }

def c3world : World :=
  { authOk := false, repos := [], userRepos := [], orgs := [] }

def c3conn : ConnectionRec :=
  { id := 1, name := "c", type := "github", config := c3cfg, enabled := true,
    lastSync := none }

/-- Counterexample for C3: when the connectivity test fails (`authOk = false`
with a configured token), `sync_github` returns the `{"error": ...}`
dictionary instead of raising, so `poll_connection` treats the call as having
succeeded: the caller-visible status is `success` (not `error`) and
`last_sync` IS updated to the poll time — both contrary to the claim.  Only
the zero-writes part of the claim holds (the store stays empty). -/
theorem C3_counterexample :
    (poll_connection c3world [c3conn] [] 5 1).status = PollStatus.success ∧
    (poll_connection c3world [c3conn] [] 5 1).status ≠ PollStatus.error ∧
    (poll_connection c3world [c3conn] [] 5 1).result
        = some (SyncRet.err "Failed to connect to GitHub") ∧
    (poll_connection c3world [c3conn] [] 5 1).connections.map
        (fun c => c.lastSync) = [some 5] ∧
    (poll_connection c3world [c3conn] [] 5 1).store = [] := by
  decide

/-- C3 (amended): for every enabled github connection with a configured token
whose connectivity test fails, `sync_github` aborts before any bulk work with
zero store writes after the single test call, returning the error dictionary
`{"error": "Failed to connect to GitHub"}`; but because that dictionary is
returned rather than raised, `poll_connection` reports status `success` with
the error payload nested in the result, and it DOES update the connection's
`last_sync` timestamp. -/
theorem C3_connectivity_failure (world : World)
    (connections : List ConnectionRec) (store : List StoredEvent)
    (now connectionId : Nat) (conn : ConnectionRec)
    (hfind : connections.find?
        (fun c => decide (c.id = connectionId ∧ c.enabled)) = some conn)
    (htype : conn.type = "github")
    (htoken : conn.config.token ≠ "")
    (hauth : world.authOk = false) :
    (sync_github world store conn.config connectionId).ret
        = SyncRet.err "Failed to connect to GitHub" ∧
    (sync_github world store conn.config connectionId).store = store ∧
    (sync_github world store conn.config connectionId).netCalls = 1 ∧
    (poll_connection world connections store now connectionId).status
        = PollStatus.success ∧
    (poll_connection world connections store now connectionId).result
        = some (SyncRet.err "Failed to connect to GitHub") ∧
    (poll_connection world connections store now connectionId).store = store ∧
    (poll_connection world connections store now connectionId).connections
        = connections.map (fun c =>
            if c.id = connectionId then { c with lastSync := some now }
            else c) := by
  have hs := sync_github_testfail world store conn.config connectionId htoken hauth
  have hpoll : poll_connection world connections store now connectionId
      = { status := PollStatus.success
          reason := none
          result := some (sync_github world store conn.config connectionId).ret
          store := (sync_github world store conn.config connectionId).store
          connections := connections.map (fun c =>
            if c.id = connectionId then { c with lastSync := some now }
            else c)
          netCalls := (sync_github world store conn.config connectionId).netCalls } := by
    unfold poll_connection
    rw [hfind]
    dsimp only
    rw [if_pos htype]
  rw [hpoll, hs]
  exact ⟨rfl, rfl, rfl, rfl, rfl, rfl, rfl⟩

/-- Witness for C3 (amended) at the concrete failing-connectivity setup. -/
theorem C3_witness :
    (([c3conn].find? (fun c => decide (c.id = 1 ∧ c.enabled)) = some c3conn) ∧
      c3conn.type = "github" ∧ c3conn.config.token ≠ "" ∧
      c3world.authOk = false) ∧
    ((sync_github c3world [] c3conn.config 1).ret
        = SyncRet.err "Failed to connect to GitHub" ∧
      (sync_github c3world [] c3conn.config 1).store = [] ∧
      (sync_github c3world [] c3conn.config 1).netCalls = 1 ∧
      (poll_connection c3world [c3conn] [] 7 1).status = PollStatus.success ∧
      (poll_connection c3world [c3conn] [] 7 1).result
        = some (SyncRet.err "Failed to connect to GitHub") ∧
      (poll_connection c3world [c3conn] [] 7 1).store = [] ∧
      (poll_connection c3world [c3conn] [] 7 1).connections
        = [c3conn].map (fun c =>
            if c.id = 1 then { c with lastSync := some 7 } else c)) :=
  ⟨⟨by decide, rfl, by decide, rfl⟩,
    C3_connectivity_failure c3world [c3conn] [] 7 1 c3conn
      (by decide) rfl (by decide) rfl⟩

def pr1c : PRData :=
  { number := 7, title := "t", body := none, userLogin := "u",
    baseRef := "main", headRef := "f", state := "open", labels := [],
    filesFetch := some [], reviewsFetch := some [] }

def ev1 : StoredEvent := buildPREvent (some 1) "o/r" pr1c "pr-o/r-7"

/-- Counterexample for C1: the legacy `fetch_and_store_changes` path looks the
event up by (source, eventId), not by (connectionId, eventId).  With a store
holding the row (connectionId = 1, source = "github", eventId = "pr-o/r-7"),
processing pull request 7 of o/r through that path is a no-op (stored = 0,
nothing staged) even though no record with the inserted row's key
(connectionId = none, eventId = "pr-o/r-7") exists — under the claimed lookup
key the row would have been inserted. -/
theorem C1_counterexample :
    lookupKey [ev1] none "pr-o/r-7" = none ∧
    (processPRLegacy "o/r" (initState [ev1]) pr1c).stored = 0 ∧
    (processPRLegacy "o/r" (initState [ev1]) pr1c).staged = [] ∧
    lookupSource [ev1] "github" "pr-o/r-7" ≠ none := by
  decide

def w1w : World :=
  { authOk := true, repos := [], userRepos := [], orgs := [] }

/-- C1 (amended): in the session sync path (`fetch_with_session`) the
existence lookup before insert uses exactly the key (connectionId, eventId):
when a row with that key is present the call is a no-op changing only the
fetched counter and leaving every existing row untouched, and a whole run
over a store with distinct (connectionId, eventId) pairs only appends rows
carrying the run's connection id while preserving that distinctness — at most
one stored record per upstream item per connection.  The legacy
`fetch_and_store_changes` path instead keys its lookup on (source, eventId)
and stores rows without a connectionId. -/
theorem C1_dedup_key (world : World) (store : List StoredEvent) (cid : Nat)
    (repos branches : List String) (limit : Nat) (hnd : KeysNodup store) :
    KeysNodup (fetchWithSession world store cid repos branches limit).committed ∧
    (∃ t, (fetchWithSession world store cid repos branches limit).committed
        = store ++ t ∧ ∀ e ∈ t, e.connectionId = some cid) ∧
    (∀ st2 it,
      (lookupKey (st2.committed ++ st2.staged) (some cid) it.eventId).isSome →
        processItem cid st2 it = bumpFetched st2 it.kind) := by
  refine ⟨?_, ?_, ?_⟩
  · exact foldl_processTarget_nodup cid world branches limit
      (reposToFetch world repos) (initState store) rfl hnd
  · obtain ⟨t, ht, ht2⟩ := foldl_processTarget_committed_origin cid world
      branches limit (reposToFetch world repos) (initState store) rfl
    refine ⟨t, ht, ?_⟩
    intro e he
    obtain ⟨repo, _, it, hit, _, hev⟩ := ht2 e he
    rw [hev]
    exact (targetItems_wf cid world branches limit repo it hit).1
  · intro st2 it h
    have h2 : (lookupKey ((bumpFetched st2 it.kind).committed
        ++ (bumpFetched st2 it.kind).staged) (some cid) it.eventId).isSome := by
      rw [bumpFetched_committed, bumpFetched_staged]
      exact h
    unfold processItem
    dsimp only
    by_cases hs : it.skip
    · rw [if_pos hs]
    · rw [if_neg hs, if_pos h2]

/-- Witness for C1 (amended) over the empty store. -/
theorem C1_witness :
    KeysNodup ([] : List StoredEvent) ∧
    (KeysNodup (fetchWithSession w1w [] 1 [] [] 50).committed ∧
      (∃ t, (fetchWithSession w1w [] 1 [] [] 50).committed = [] ++ t ∧
        ∀ e ∈ t, e.connectionId = some 1) ∧
      (∀ st2 it,
        (lookupKey (st2.committed ++ st2.staged) (some 1) it.eventId).isSome →
          processItem 1 st2 it = bumpFetched st2 it.kind)) :=
  ⟨List.nodup_nil, C1_dedup_key w1w [] 1 [] [] 50 List.nodup_nil⟩

/-- C2: running the sync twice against an unchanged upstream dataset (and no
per-target failures) stores zero new rows on the second run while fetching the
same count: every item whose derived eventId already has a matching stored
record for the connection is skipped without staging, so the second
`sync_github` returns `stored = 0` and the same `fetched` as the first. -/
theorem C2_idempotent (world : World) (store : List StoredEvent) (cfg : Config)
    (cid : Nat) (htoken : cfg.token ≠ "") (hauth : world.authOk = true)
    (hfail : ∀ r ∈ reposToFetch world (parseListConfig cfg.repos),
      r.failAt = none) :
    ∃ f s,
      (sync_github world store cfg cid).ret = SyncRet.ok f s ∧
      (sync_github world (sync_github world store cfg cid).store cfg cid).ret
        = SyncRet.ok f 0 := by
  have hr1 := sync_github_run world store cfg cid htoken hauth
  have hstore1 : (sync_github world store cfg cid).store
      = (fetchWithSession world store cid (parseListConfig cfg.repos)
          (parseListConfig cfg.branches) 50).committed := by
    rw [hr1]
  have hr2 := sync_github_run world (sync_github world store cfg cid).store
    cfg cid htoken hauth
  refine ⟨(fetchWithSession world store cid (parseListConfig cfg.repos)
      (parseListConfig cfg.branches) 50).fetched,
    (fetchWithSession world store cid (parseListConfig cfg.repos)
      (parseListConfig cfg.branches) 50).stored, ?_, ?_⟩
  · rw [hr1]
  · rw [hr2, hstore1]
    have hcov := foldl_processTarget_covers cid world
      (parseListConfig cfg.branches) 50
      (reposToFetch world (parseListConfig cfg.repos)) (initState store)
      hfail rfl
    have hcond : ∀ r ∈ reposToFetch world (parseListConfig cfg.repos),
        ∀ it ∈ targetItems cid world (parseListConfig cfg.branches) 50 r,
          it.skip = true ∨
            (lookupKey (initState (fetchWithSession world store cid
                (parseListConfig cfg.repos) (parseListConfig cfg.branches)
                50).committed).committed
              (some cid) it.eventId).isSome := by
      intro r hr it hit
      by_cases hs : it.skip
      · exact Or.inl hs
      · right
        obtain ⟨e, hel, hc, hi⟩ := hcov r hr it hit (by simpa using hs)
        exact (lookupKey_isSome_iff _ _ _).mpr ⟨e, hel, hc, hi⟩
    have hfro := foldl_processTarget_frozen cid world
      (parseListConfig cfg.branches) 50
      (reposToFetch world (parseListConfig cfg.repos))
      (initState (fetchWithSession world store cid (parseListConfig cfg.repos)
        (parseListConfig cfg.branches) 50).committed)
      hfail rfl hcond
    have hs0 : (fetchWithSession world
        (fetchWithSession world store cid (parseListConfig cfg.repos)
          (parseListConfig cfg.branches) 50).committed
        cid (parseListConfig cfg.repos) (parseListConfig cfg.branches)
        50).stored = 0 := hfro.2.2
    have hfeq : (fetchWithSession world
        (fetchWithSession world store cid (parseListConfig cfg.repos)
          (parseListConfig cfg.branches) 50).committed
        cid (parseListConfig cfg.repos) (parseListConfig cfg.branches)
        50).fetched
      = (fetchWithSession world store cid (parseListConfig cfg.repos)
          (parseListConfig cfg.branches) 50).fetched := by
      rw [fetchWithSession_fetched, fetchWithSession_fetched]
    rw [hs0, hfeq]

def pr2w : PRData :=
  { number := 1, title := "t", body := none, userLogin := "u",
    baseRef := "main", headRef := "f", state := "open", labels := [],
    filesFetch := some ["a.py"], reviewsFetch := some [] }

def repo2w : RepoData :=
  { fullName := "o/r", pulls := [pr2w], releases := [], runsFetchFail := false,
    runs := [], branches := [], failAt := none }

def w2 : World :=
  { authOk := true, repos := [("o/r", repo2w)], userRepos := [], orgs := [] }

def cfg2 : Config :=
  { token := "t", repos := "o/r", branches := "", isEnterprise := false,
    baseUrl := "" }

/-- Witness for C2 at a concrete one-repository, one-pull-request upstream. -/
theorem C2_witness :
    (cfg2.token ≠ "" ∧ w2.authOk = true ∧
      ∀ r ∈ reposToFetch w2 (parseListConfig cfg2.repos), r.failAt = none) ∧
    (∃ f s, (sync_github w2 [] cfg2 1).ret = SyncRet.ok f s ∧
      (sync_github w2 (sync_github w2 [] cfg2 1).store cfg2 1).ret
        = SyncRet.ok f 0) :=
  ⟨⟨by decide, rfl, by decide⟩,
    C2_idempotent w2 [] cfg2 1 (by decide) rfl (by decide)⟩
